import Mathlib

/-!
# go-role-strategy-sdk: a shallow embedding of the client library

The Go sources `client.go`, `models.go` and `api.go` are translated into Lean
definitions.  Go strings are byte sequences, so a Go `string` is a list of
bytes here.  The behaviour of the Go standard library that the client relies on
(`net/url`, `strings`, `fmt`) is written out below; the parts of the outside
world that the client cannot determine (whether `http.NewRequest` accepts a
target, what the transport answers, what the JSON decoder makes of a body) are
fields of `World`.
-/

namespace RoleStrategy

/-! ## Go strings -/

/-- A Go `byte`. -/
abbrev Byte := Fin 256

/-- A Go `string`: an immutable sequence of bytes. -/
abbrev GoString := List Byte

/-- The UTF-8 bytes of a string literal of the source. -/
def bytes (s : String) : GoString :=
  (s.data.flatMap String.utf8EncodeChar).map (fun b => Fin.ofNat b.toNat)

/-- A byte literal of the source, such as the slash in `baseURL[len(baseURL)-1] != '/'`. -/
def ch (c : Char) : Byte := Fin.ofNat c.toNat

/-- A Go `error`, represented by its message. -/
abbrev GoError := GoString

/-! ## Go maps -/

/-- A Go `map[string]V`: every key occurs once.  The order of `entries` stands for
the order in which a `range` loop visits the map in the execution at hand; Go
leaves that order unspecified, and statements quantify over all maps and so over
all orders. -/
structure GoMap (V : Type) where
  entries : List (GoString × V)
  nodup : (entries.map Prod.fst).Nodup

namespace GoMap

variable {V : Type}

/-- The empty map, as made by `url.Values{}`. -/
def empty : GoMap V := ⟨[], List.nodup_nil⟩

/-- The keys in iteration order. -/
def keys (m : GoMap V) : List GoString := m.entries.map Prod.fst

/-- Index expression `m[k]`, with `none` for an absent key. -/
def get (m : GoMap V) (k : GoString) : Option V :=
  (m.entries.find? (fun e => e.1 = k)).map Prod.snd

/-- Assignment `m[k] = x`. -/
def set (m : GoMap V) (k : GoString) (x : V) : GoMap V :=
  ⟨(k, x) :: m.entries.filter (fun e => e.1 ≠ k), by
    rw [List.map_cons, List.nodup_cons]
    constructor
    · intro hk
      rcases List.mem_map.1 hk with ⟨e, he, hek⟩
      have hne := (List.mem_filter.1 he).2
      simp at hne
      exact hne hek
    · exact List.Nodup.sublist (List.Sublist.map _ (List.filter_sublist _)) m.nodup⟩

end GoMap

/-! ## models.go -/

/-- RoleType represents the type of role. -/
abbrev RoleType := GoString

def GlobalRole : RoleType := bytes "globalRoles"
def ProjectRole : RoleType := bytes "projectRoles"
def SlaveRole : RoleType := bytes "slaveRoles"

/-- SIDEntry represents a user or group assignment. -/
structure SIDEntry where
  Type_ : GoString
  SID : GoString
deriving DecidableEq

/-- PermissionTemplate represents a permission template. -/
structure PermissionTemplate where
  Name : GoString
  PermissionIDs : List (GoString × Bool)
  IsUsed : Bool
  SIDs : List SIDEntry
deriving DecidableEq

/-- RoleInfo represents the details of a role. -/
structure RoleInfo where
  PermissionIDs : List (GoString × Bool)
  SIDs : List SIDEntry
  Pattern : GoString
  Template : GoString
deriving DecidableEq

/-- RoleAssignment represents a user or group and their roles. -/
structure RoleAssignment where
  Name : GoString
  Type_ : GoString
  Roles : List GoString
deriving DecidableEq

/-- MatchingItem represents a matched job or agent. -/
structure MatchingItem where
  Name : GoString
deriving DecidableEq

/-- A decoded JSON value held in an `interface{}`; numbers keep their text. -/
inductive JSONValue where
  | null : JSONValue
  | bool : Bool → JSONValue
  | number : GoString → JSONValue
  | string : GoString → JSONValue
  | array : List JSONValue → JSONValue
  | object : List (GoString × JSONValue) → JSONValue

/-! ## client.go -/

/-- The zero value `http.Client{}` the constructor stores. -/
structure HTTPClient where
deriving DecidableEq

/-- Client is the Jenkins Role Strategy SDK client. -/
structure Client where
  BaseURL : GoString
  Username : GoString
  APIToken : GoString
  HTTPClient : HTTPClient
deriving DecidableEq

/-- The body type of outbound requests: `nopReadCloser` of the source. -/
structure nopReadCloser where
  str : GoString
deriving DecidableEq

/-- The fields of an `http.Request` the client sets.  `BasicAuth` holds the
credentials given to `SetBasicAuth`; `Body = none` is a nil body. -/
structure Request where
  Method : GoString
  URL : GoString
  BasicAuth : Option (GoString × GoString)
  Header : List (GoString × GoString)
  ContentLength : Int
  Body : Option nopReadCloser
deriving DecidableEq

/-- The fields of an `http.Response` the client reads, the body fully received. -/
structure Response where
  StatusCode : Int
  Status : GoString
  Body : GoString
deriving DecidableEq

/-- What the client cannot determine: the verdict of `http.NewRequest` on a method
and target (an error message when it refuses), the answer of the transport to
`HTTPClient.Do`, and the result of `json.NewDecoder(body).Decode` for each
target type. -/
structure World where
  newRequestErr : GoString → GoString → Option GoError
  Do : HTTPClient → Request → Except GoError Response
  decodeTemplate : GoString → Except GoError PermissionTemplate
  decodeRole : GoString → Except GoError RoleInfo
  decodeRoles : GoString → Except GoError (Option (GoMap (List JSONValue)))
  decodeAssignments : GoString → Except GoError (Option (List RoleAssignment))
  decodeItems : GoString → Except GoError (Option (List MatchingItem))

/-- NewClient creates a new RoleStrategy client.  The result is `none` when the
index expression `baseURL[len(baseURL)-1]` is out of range (a run-time panic). -/
def NewClient (baseURL username apiToken : GoString) : Option Client :=
  let baseURL := if baseURL = [] then bytes "http://localhost:8080/jenkins" else baseURL
  match baseURL[baseURL.length - 1]? with
  | none => none
  | some last =>
    let baseURL := if last ≠ ch '/' then baseURL ++ bytes "/" else baseURL
    some ⟨baseURL, username, apiToken, ⟨⟩⟩

/-- `http.NewRequest(method, u, nil)`: refused, or a request with the method and
target set, no headers and no body.  The method and the target are recorded as
they are passed; the client passes only the methods `POST` and `GET`. -/
def httpNewRequest (w : World) (method u : GoString) : Except GoError Request :=
  match w.newRequestErr method u with
  | some e => .error e
  | none => .ok ⟨method, u, none, [], 0, none⟩

/-- `Header.Set`: replaces the values of the key. -/
def headerSet (h : List (GoString × GoString)) (k x : GoString) : List (GoString × GoString) :=
  h.filter (fun e => e.1 ≠ k) ++ [(k, x)]

/-- Method `newRequest` creates a new HTTP request with Basic Auth. -/
def Client.newRequest (c : Client) (w : World) (method path body : GoString) :
    Except GoError Request :=
  let u := c.BaseURL ++ path
  match httpNewRequest w method u with
  | .error err => .error err
  | .ok req =>
    let req := { req with BasicAuth := some (c.Username, c.APIToken) }
    let req := { req with
      Header := headerSet req.Header (bytes "Content-Type") (bytes "application/x-www-form-urlencoded") }
    let req := if body ≠ [] then
        { req with ContentLength := (body.length : Int), Body := some ⟨body⟩ }
      else req
    .ok req

/-- Builtin `copy(b, s)`: overwrites the first `min (len b) (len s)` bytes of `b`
and returns the buffer together with that count. -/
def copy (b : List Byte) (s : GoString) : List Byte × Nat :=
  let n := min b.length s.length
  (s.take n ++ b.drop n, n)

/-- Method `Close` of `nopReadCloser`. -/
def nopReadCloser.Close (_r : nopReadCloser) : Option GoError := none

/-- Method `Read` of `nopReadCloser`, on its receiver `r`: the receiver after the
body has run, the buffer, the count and the error. -/
def nopReadCloser.Read (r : nopReadCloser) (b : List Byte) :
    nopReadCloser × List Byte × Nat × Option GoError :=
  let (b, n) := copy b r.str
  if n ≥ r.str.length then
    let r := { r with str := [] }
    (r, b, n, none)
  else
    let r := { r with str := r.str.drop n }
    (r, b, n, none)

/-- A call `body.Read(b)` on the `io.ReadCloser` held in a request.  `Read` is
declared with a value receiver, `func (r nopReadCloser) Read`, so the method
runs on a copy of the held value and the held value is what it was. -/
def Request.readBody (held : nopReadCloser) (b : List Byte) :
    nopReadCloser × List Byte × Nat × Option GoError :=
  let (_, out) := held.Read b
  (held, out)

/-- Successive `Read` calls on a held body, each with a fresh buffer `buf`: the
data each call delivered (the first `n` bytes of the buffer). -/
def readMany (held : nopReadCloser) (buf : List Byte) : Nat → List (List Byte)
  | 0 => []
  | k + 1 =>
    let (held, b, n, _) := Request.readBody held buf
    b.take n :: readMany held buf k

/-! ## Standard library: strings and fmt -/

/-- Function `strings.Join`: nothing for no elements, the element itself for one,
otherwise the first element followed by each further one behind a separator. -/
def Join : List GoString → GoString → GoString
  | [], _ => []
  | [e], _ => e
  | e :: rest, sep => rest.foldl (fun b s => b ++ sep ++ s) e

/-- The verb `%t` of `fmt`. -/
def formatBool (b : Bool) : GoString := if b then bytes "true" else bytes "false"

/-- The verb `%d` of `fmt` on an `int`: decimal digits, a minus sign when negative. -/
def formatInt (n : Int) : GoString := bytes (toString n)

/-! ## Standard library: net/url -/

/-- Function `shouldEscape` of `net/url` in the mode `encodeQueryComponent`. -/
def shouldEscape (c : Byte) : Bool :=
  if (ch 'a' ≤ c ∧ c ≤ ch 'z') ∨ (ch 'A' ≤ c ∧ c ≤ ch 'Z') ∨ (ch '0' ≤ c ∧ c ≤ ch '9') then
    false
  else if c = ch '-' ∨ c = ch '_' ∨ c = ch '.' ∨ c = ch '~' then
    false
  else if c = ch '$' ∨ c = ch '&' ∨ c = ch '+' ∨ c = ch ',' ∨ c = ch '/' ∨ c = ch ':' ∨
      c = ch ';' ∨ c = ch '=' ∨ c = ch '?' ∨ c = ch '@' then
    true
  else
    true

/-- Indexing the constant `upperhex = "0123456789ABCDEF"`. -/
def upperhex (i : Nat) : Byte := (bytes "0123456789ABCDEF").getD i 0

/-- What `escape` writes for one byte in the mode `encodeQueryComponent`. -/
def escapeByte (c : Byte) : List Byte :=
  if shouldEscape c then
    if c = ch ' ' then [ch '+']
    else [ch '%', upperhex (c.val >>> 4), upperhex (c.val &&& 15)]
  else [c]

/-- Function `url.QueryEscape`. -/
def QueryEscape (s : GoString) : GoString := s.flatMap escapeByte

/-- Function `ishex` of `net/url`. -/
def ishex (c : Byte) : Bool :=
  (ch '0' ≤ c ∧ c ≤ ch '9') ∨ (ch 'a' ≤ c ∧ c ≤ ch 'f') ∨ (ch 'A' ≤ c ∧ c ≤ ch 'F')

/-- Function `unhex` of `net/url`. -/
def unhex (c : Byte) : Byte :=
  if ch '0' ≤ c ∧ c ≤ ch '9' then c - ch '0'
  else if ch 'a' ≤ c ∧ c ≤ ch 'f' then c - ch 'a' + 10
  else if ch 'A' ≤ c ∧ c ≤ ch 'F' then c - ch 'A' + 10
  else 0

/-- Function `url.QueryUnescape`; `none` is an `EscapeError`. -/
def QueryUnescape : GoString → Option GoString
  | [] => some []
  | c :: rest =>
    if c = ch '%' then
      match rest with
      | h :: l :: rest2 =>
        if ishex h && ishex l then
          (QueryUnescape rest2).map
            (fun t => Fin.ofNat ((unhex h).val <<< 4 ||| (unhex l).val) :: t)
        else none
      | _ => none
    else if c = ch '+' then (QueryUnescape rest).map (fun t => ch ' ' :: t)
    else (QueryUnescape rest).map (fun t => c :: t)

/-- A `url.Values`: `map[string][]string`. -/
abbrev Values := GoMap (List GoString)

/-- Method `Values.Set`: the key gets the single value, replacing any it had. -/
def Values.Set (v : Values) (key value : GoString) : Values := GoMap.set v key [value]

/-- Method `Values.Has`. -/
def Values.Has (v : Values) (key : GoString) : Bool := (GoMap.get v key).isSome

/-- The order `<` of Go strings: bytewise lexicographic. -/
def strLess : GoString → GoString → Bool
  | _, [] => false
  | [], _ :: _ => true
  | a :: as, b :: bs => if a < b then true else if b < a then false else strLess as bs

/-- Inserts a string into an ascending list. -/
def insertSorted (k : GoString) : List GoString → List GoString
  | [] => [k]
  | x :: xs => if strLess k x then k :: x :: xs else x :: insertSorted k xs

/-- The result of `slices.Sort` on strings: the elements in ascending order. -/
def sortStrings (ks : List GoString) : List GoString := ks.foldr insertSorted []

/-- Method `Values.Encode` of `net/url`, documented as encoding the values into
URL-encoded form (`bar=baz&foo=quux`) sorted by key: it collects the keys of the
map, sorts them, and for each key in that order writes `key=value` for each of its
values, both sides escaped, with an ampersand before every pair but the first. -/
def Values.Encode (v : Values) : GoString :=
  if v.entries.length = 0 then []
  else
    let keys := sortStrings v.keys
    keys.foldl (fun buf k =>
      let vs := (GoMap.get v k).getD []
      let keyEscaped := QueryEscape k
      vs.foldl (fun buf x =>
        let buf := if buf.length > 0 then buf ++ [ch '&'] else buf
        buf ++ keyEscaped ++ [ch '='] ++ QueryEscape x) buf) []

/-- Function `strings.Cut` for a one-byte separator: the text before the first
separator, the text after it, and whether there is one. -/
def cut (sep : Byte) : GoString → GoString × GoString × Bool
  | [] => ([], [], false)
  | c :: cs =>
    if c = sep then ([], cs, true)
    else
      let r := cut sep cs
      (c :: r.1, r.2.1, r.2.2)

/-- One round of the loop of `url.ParseQuery` on the segment `key` cut off at an
ampersand: the map and whether an error has been met. -/
def parseSegment (st : Values × Bool) (key : GoString) : Values × Bool :=
  if ch ';' ∈ key then (st.1, true)
  else if key = [] then st
  else
    let r := cut (ch '=') key
    match QueryUnescape r.1 with
    | none => (st.1, true)
    | some key =>
      match QueryUnescape r.2.1 with
      | none => (st.1, true)
      | some value => (GoMap.set st.1 key ((GoMap.get st.1 key).getD [] ++ [value]), st.2)

/-- Function `url.ParseQuery`: the decoded form and whether it reports an error.
The loop cuts the query at each ampersand, which is splitting it there. -/
def ParseQuery (query : GoString) : Values × Bool :=
  (query.splitOn (ch '&')).foldl parseSegment (GoMap.empty, false)

/-! ## api.go -/

/-- What a write operation does: the requests it handed to the transport, and
the error it returns (`none` is a nil error). -/
structure WriteOutcome where
  sent : List Request
  err : Option GoError
deriving DecidableEq

/-- What a read operation does: the requests it handed to the transport, the
value it returns (`none` is nil) and the error it returns. -/
structure ReadOutcome (α : Type) where
  sent : List Request
  val : Option α
  err : Option GoError

def strategyPrefix : GoString := bytes "role-strategy/strategy"

/-- AddTemplate adds a new permission template. -/
def Client.AddTemplate (c : Client) (w : World) (name permissionIds : GoString) (overwrite : Bool) : WriteOutcome :=
  let v : Values := GoMap.empty
  let v := Values.Set v (bytes "name") name
  let v := Values.Set v (bytes "permissionIds") permissionIds
  let v := Values.Set v (bytes "overwrite") (formatBool overwrite)
  match c.newRequest w (bytes "POST") (strategyPrefix ++ bytes "/addTemplate") (Values.Encode v) with
  | .error err => ⟨[], some err⟩
  | .ok req =>
    match w.Do c.HTTPClient req with
    | .error err => ⟨[req], some err⟩
    | .ok resp =>
      if resp.StatusCode ≠ 200 then
        ⟨[req], some (bytes "add template failed: " ++ formatInt resp.StatusCode ++ bytes " " ++ resp.Status ++ bytes ": " ++ resp.Body)⟩
      else ⟨[req], none⟩

/-- RemoveTemplates removes one or more templates. -/
def Client.RemoveTemplates (c : Client) (w : World) (names : List GoString) (force : Bool) : WriteOutcome :=
  let v : Values := GoMap.empty
  let v := Values.Set v (bytes "names") (Join names (bytes ","))
  let v := Values.Set v (bytes "force") (formatBool force)
  match c.newRequest w (bytes "POST") (strategyPrefix ++ bytes "/removeTemplates") (Values.Encode v) with
  | .error err => ⟨[], some err⟩
  | .ok req =>
    match w.Do c.HTTPClient req with
    | .error err => ⟨[req], some err⟩
    | .ok resp =>
      if resp.StatusCode ≠ 200 then
        ⟨[req], some (bytes "remove templates failed: " ++ formatInt resp.StatusCode ++ bytes " " ++ resp.Status)⟩
      else ⟨[req], none⟩

/-- AddRole adds a new role. -/
def Client.AddRole (c : Client) (w : World) (roleType : RoleType) (roleName permissionIds : GoString)
    (overwrite : Bool) (pattern template : GoString) : WriteOutcome :=
  let v : Values := GoMap.empty
  let v := Values.Set v (bytes "type") roleType
  let v := Values.Set v (bytes "roleName") roleName
  let v := Values.Set v (bytes "permissionIds") permissionIds
  let v := Values.Set v (bytes "overwrite") (formatBool overwrite)
  let v := if pattern ≠ [] then Values.Set v (bytes "pattern") pattern else v
  let v := if template ≠ [] then Values.Set v (bytes "template") template else v
  match c.newRequest w (bytes "POST") (strategyPrefix ++ bytes "/addRole") (Values.Encode v) with
  | .error err => ⟨[], some err⟩
  | .ok req =>
    match w.Do c.HTTPClient req with
    | .error err => ⟨[req], some err⟩
    | .ok resp =>
      if resp.StatusCode ≠ 200 then
        ⟨[req], some (bytes "add role failed: " ++ formatInt resp.StatusCode ++ bytes " " ++ resp.Status)⟩
      else ⟨[req], none⟩

/-- RemoveRoles removes one or more roles. -/
def Client.RemoveRoles (c : Client) (w : World) (roleType : RoleType) (roleNames : List GoString) : WriteOutcome :=
  let v : Values := GoMap.empty
  let v := Values.Set v (bytes "type") roleType
  let v := Values.Set v (bytes "roleNames") (Join roleNames (bytes ","))
  match c.newRequest w (bytes "POST") (strategyPrefix ++ bytes "/removeRoles") (Values.Encode v) with
  | .error err => ⟨[], some err⟩
  | .ok req =>
    match w.Do c.HTTPClient req with
    | .error err => ⟨[req], some err⟩
    | .ok resp =>
      if resp.StatusCode ≠ 200 then
        ⟨[req], some (bytes "remove roles failed: " ++ formatInt resp.StatusCode ++ bytes " " ++ resp.Status)⟩
      else ⟨[req], none⟩

/-- Method `assignRole`, shared by the user and the group operation. -/
def Client.assignRole (c : Client) (w : World) (roleType : RoleType) (roleName sid param : GoString) : WriteOutcome :=
  let v : Values := GoMap.empty
  let v := Values.Set v (bytes "type") roleType
  let v := Values.Set v (bytes "roleName") roleName
  let v := Values.Set v param sid
  let endpoint := bytes "assignUserRole"
  let endpoint := if param = bytes "group" then bytes "assignGroupRole" else endpoint
  match c.newRequest w (bytes "POST") (strategyPrefix ++ bytes "/" ++ endpoint) (Values.Encode v) with
  | .error err => ⟨[], some err⟩
  | .ok req =>
    match w.Do c.HTTPClient req with
    | .error err => ⟨[req], some err⟩
    | .ok resp =>
      if resp.StatusCode ≠ 200 then
        ⟨[req], some (bytes "assign " ++ param ++ bytes " failed: " ++ formatInt resp.StatusCode ++ bytes " " ++ resp.Status)⟩
      else ⟨[req], none⟩

/-- AssignUserRole assigns a user to a role. -/
def Client.AssignUserRole (c : Client) (w : World) (roleType : RoleType) (roleName user : GoString) :
    WriteOutcome :=
  c.assignRole w roleType roleName user (bytes "user")

/-- AssignGroupRole assigns a group to a role. -/
def Client.AssignGroupRole (c : Client) (w : World) (roleType : RoleType) (roleName group : GoString) :
    WriteOutcome :=
  c.assignRole w roleType roleName group (bytes "group")

/-- Method `unassignRole`, shared by the user and the group operation. -/
def Client.unassignRole (c : Client) (w : World) (roleType : RoleType) (roleName sid param : GoString) : WriteOutcome :=
  let v : Values := GoMap.empty
  let v := Values.Set v (bytes "type") roleType
  let v := Values.Set v (bytes "roleName") roleName
  let v := Values.Set v param sid
  let endpoint := bytes "unassignUserRole"
  let endpoint := if param = bytes "group" then bytes "unassignGroupRole" else endpoint
  match c.newRequest w (bytes "POST") (strategyPrefix ++ bytes "/" ++ endpoint) (Values.Encode v) with
  | .error err => ⟨[], some err⟩
  | .ok req =>
    match w.Do c.HTTPClient req with
    | .error err => ⟨[req], some err⟩
    | .ok resp =>
      if resp.StatusCode ≠ 200 then
        ⟨[req], some (bytes "unassign " ++ param ++ bytes " failed: " ++ formatInt resp.StatusCode ++ bytes " " ++ resp.Status)⟩
      else ⟨[req], none⟩

/-- UnassignUserRole removes a user from a role. -/
def Client.UnassignUserRole (c : Client) (w : World) (roleType : RoleType) (roleName user : GoString) :
    WriteOutcome :=
  c.unassignRole w roleType roleName user (bytes "user")

/-- UnassignGroupRole removes a group from a role. -/
def Client.UnassignGroupRole (c : Client) (w : World) (roleType : RoleType) (roleName group : GoString) :
    WriteOutcome :=
  c.unassignRole w roleType roleName group (bytes "group")

/-- Method `deleteSid`; both endpoints take the identifier under `user`. -/
def Client.deleteSid (c : Client) (w : World) (roleType : RoleType) (sid endpoint : GoString) : WriteOutcome :=
  let v : Values := GoMap.empty
  let v := Values.Set v (bytes "type") roleType
  let v := Values.Set v (bytes "user") sid
  match c.newRequest w (bytes "POST") (strategyPrefix ++ bytes "/" ++ endpoint) (Values.Encode v) with
  | .error err => ⟨[], some err⟩
  | .ok req =>
    match w.Do c.HTTPClient req with
    | .error err => ⟨[req], some err⟩
    | .ok resp =>
      if resp.StatusCode ≠ 200 then
        ⟨[req], some (endpoint ++ bytes " failed: " ++ formatInt resp.StatusCode ++ bytes " " ++ resp.Status)⟩
      else ⟨[req], none⟩

/-- DeleteUser removes a user from all roles. -/
def Client.DeleteUser (c : Client) (w : World) (roleType : RoleType) (user : GoString) :
    WriteOutcome :=
  c.deleteSid w roleType user (bytes "deleteUser")

/-- DeleteGroup removes a group from all roles. -/
def Client.DeleteGroup (c : Client) (w : World) (roleType : RoleType) (group : GoString) :
    WriteOutcome :=
  c.deleteSid w roleType group (bytes "deleteGroup")

/-- GetTemplate gets a permission template. -/
def Client.GetTemplate (c : Client) (w : World) (name : GoString) : ReadOutcome (PermissionTemplate) :=
  let u := strategyPrefix ++ bytes "/getTemplate?name=" ++ QueryEscape name
  match c.newRequest w (bytes "GET") u [] with
  | .error err => ⟨[], none, some err⟩
  | .ok req =>
    match w.Do c.HTTPClient req with
    | .error err => ⟨[req], none, some err⟩
    | .ok resp =>
      if resp.StatusCode ≠ 200 then
        ⟨[req], none, some (bytes "get template failed: " ++ formatInt resp.StatusCode ++ bytes " " ++ resp.Status)⟩
      else
        match w.decodeTemplate resp.Body with
        | .error err => ⟨[req], none, some err⟩
        | .ok x => ⟨[req], some x, none⟩

/-- GetRole gets the details of a role. -/
def Client.GetRole (c : Client) (w : World) (roleType : RoleType) (roleName : GoString) : ReadOutcome (RoleInfo) :=
  let u := strategyPrefix ++ bytes "/getRole?type=" ++ QueryEscape roleType ++ bytes "&roleName=" ++
    QueryEscape roleName
  match c.newRequest w (bytes "GET") u [] with
  | .error err => ⟨[], none, some err⟩
  | .ok req =>
    match w.Do c.HTTPClient req with
    | .error err => ⟨[req], none, some err⟩
    | .ok resp =>
      if resp.StatusCode ≠ 200 then
        ⟨[req], none, some (bytes "get role failed: " ++ formatInt resp.StatusCode ++ bytes " " ++ resp.Status)⟩
      else
        match w.decodeRole resp.Body with
        | .error err => ⟨[req], none, some err⟩
        | .ok x => ⟨[req], some x, none⟩

/-- GetAllRoles gets all roles for a type. -/
def Client.GetAllRoles (c : Client) (w : World) (roleType : RoleType) : ReadOutcome (GoMap (List JSONValue)) :=
  let u := strategyPrefix ++ bytes "/getAllRoles?type=" ++ QueryEscape roleType
  match c.newRequest w (bytes "GET") u [] with
  | .error err => ⟨[], none, some err⟩
  | .ok req =>
    match w.Do c.HTTPClient req with
    | .error err => ⟨[req], none, some err⟩
    | .ok resp =>
      if resp.StatusCode ≠ 200 then
        ⟨[req], none, some (bytes "get all roles failed: " ++ formatInt resp.StatusCode ++ bytes " " ++ resp.Status)⟩
      else
        match w.decodeRoles resp.Body with
        | .error err => ⟨[req], none, some err⟩
        | .ok x => ⟨[req], x, none⟩

/-- GetRoleAssignments gets all SIDs and their assigned roles. -/
def Client.GetRoleAssignments (c : Client) (w : World) (roleType : RoleType) : ReadOutcome (List RoleAssignment) :=
  let u := strategyPrefix ++ bytes "/getRoleAssignments?type=" ++ QueryEscape roleType
  match c.newRequest w (bytes "GET") u [] with
  | .error err => ⟨[], none, some err⟩
  | .ok req =>
    match w.Do c.HTTPClient req with
    | .error err => ⟨[req], none, some err⟩
    | .ok resp =>
      if resp.StatusCode ≠ 200 then
        ⟨[req], none, some (bytes "get role assignments failed: " ++ formatInt resp.StatusCode ++ bytes " " ++ resp.Status)⟩
      else
        match w.decodeAssignments resp.Body with
        | .error err => ⟨[req], none, some err⟩
        | .ok x => ⟨[req], x, none⟩

/-- GetMatchingJobs gets jobs matching a pattern. -/
def Client.GetMatchingJobs (c : Client) (w : World) (pattern : GoString) (maxJobs : Int) : ReadOutcome (List MatchingItem) :=
  let u := strategyPrefix ++ bytes "/getMatchingJobs?pattern=" ++ QueryEscape pattern ++
    bytes "&maxJobs=" ++ formatInt maxJobs
  match c.newRequest w (bytes "GET") u [] with
  | .error err => ⟨[], none, some err⟩
  | .ok req =>
    match w.Do c.HTTPClient req with
    | .error err => ⟨[req], none, some err⟩
    | .ok resp =>
      if resp.StatusCode ≠ 200 then
        ⟨[req], none, some (bytes "get matching jobs failed: " ++ formatInt resp.StatusCode ++ bytes " " ++ resp.Status)⟩
      else
        match w.decodeItems resp.Body with
        | .error err => ⟨[req], none, some err⟩
        | .ok x => ⟨[req], x, none⟩

/-- GetMatchingAgents gets agents matching a pattern. -/
def Client.GetMatchingAgents (c : Client) (w : World) (pattern : GoString) (maxAgents : Int) : ReadOutcome (List MatchingItem) :=
  let u := strategyPrefix ++ bytes "/getMatchingAgents?pattern=" ++ QueryEscape pattern ++
    bytes "&maxAgents=" ++ formatInt maxAgents
  match c.newRequest w (bytes "GET") u [] with
  | .error err => ⟨[], none, some err⟩
  | .ok req =>
    match w.Do c.HTTPClient req with
    | .error err => ⟨[req], none, some err⟩
    | .ok resp =>
      if resp.StatusCode ≠ 200 then
        ⟨[req], none, some (bytes "get matching agents failed: " ++ formatInt resp.StatusCode ++ bytes " " ++ resp.Status)⟩
      else
        match w.decodeItems resp.Body with
        | .error err => ⟨[req], none, some err⟩
        | .ok x => ⟨[req], x, none⟩

/-- The loop `for roleName := range rolesMap` over a map that may be nil: each
key visited is appended to `roleNames`. -/
def rangeKeys (rolesMap : Option (GoMap (List JSONValue))) (roleNames : Option (List GoString)) :
    Option (List GoString) :=
  match rolesMap with
  | none => roleNames
  | some m => m.entries.foldl (fun roleNames e => some (roleNames.getD [] ++ [e.1])) roleNames

/-- Method `getRoleNames`: the role names of a type, from the keys of `GetAllRoles`. -/
def Client.getRoleNames (c : Client) (w : World) (roleType : RoleType) :
    ReadOutcome (List GoString) :=
  let r := c.GetAllRoles w roleType
  match r.err with
  | some err => ⟨r.sent, none, some err⟩
  | none =>
    let roleNames : Option (List GoString) := none
    let roleNames := rangeKeys r.val roleNames
    ⟨r.sent, roleNames, none⟩

/-- GetGlobalRoleNames lists the names of all global roles. -/
def Client.GetGlobalRoleNames (c : Client) (w : World) : ReadOutcome (List GoString) :=
  c.getRoleNames w GlobalRole

/-- GetProjectRoleNames lists the names of all project roles. -/
def Client.GetProjectRoleNames (c : Client) (w : World) : ReadOutcome (List GoString) :=
  c.getRoleNames w ProjectRole

/-! ## Definitions used in the statements -/

/-- The base URL the constructor stores. -/
def normalized (baseURL : GoString) : GoString :=
  if baseURL = [] then bytes "http://localhost:8080/jenkins/"
  else if baseURL.getLast? = some (ch '/') then baseURL
  else baseURL ++ [ch '/']

/-- The part every write operation shares once the form is encoded: hand the
request to the transport and turn the status into an error; `failure` is the
message for a status other than 200. -/
def writeTail (c : Client) (w : World) (r : Except GoError Request)
    (failure : Response → GoError) : WriteOutcome :=
  match r with
  | .error err => ⟨[], some err⟩
  | .ok req =>
    match w.Do c.HTTPClient req with
    | .error err => ⟨[req], some err⟩
    | .ok resp => if resp.StatusCode ≠ 200 then ⟨[req], some (failure resp)⟩ else ⟨[req], none⟩

/-- The part every read operation shares once the target is formed. -/
def readTail {α β : Type} (c : Client) (w : World) (r : Except GoError Request)
    (failure : Response → GoError) (decode : GoString → Except GoError β)
    (wrap : β → Option α) : ReadOutcome α :=
  match r with
  | .error err => ⟨[], none, some err⟩
  | .ok req =>
    match w.Do c.HTTPClient req with
    | .error err => ⟨[req], none, some err⟩
    | .ok resp =>
      if resp.StatusCode ≠ 200 then ⟨[req], none, some (failure resp)⟩
      else
        match decode resp.Body with
        | .error err => ⟨[req], none, some err⟩
        | .ok x => ⟨[req], wrap x, none⟩

/-- The status contract of a write operation that got the response `resp`: no
error on 200, otherwise an error whose message contains the status code in
decimal. -/
def writeContract (resp : Response) (err : Option GoError) : Prop :=
  (resp.StatusCode = 200 → err = none) ∧
  (resp.StatusCode ≠ 200 → ∃ msg, err = some msg ∧ formatInt resp.StatusCode <:+: msg)

/-- The failure contract of a read operation that got the response `resp`: no
value, and an error whose message contains the status code in decimal and the
status text. -/
def readFailure {α : Type} (resp : Response) (o : ReadOutcome α) : Prop :=
  o.val = none ∧
  ∃ msg, o.err = some msg ∧ formatInt resp.StatusCode <:+: msg ∧ resp.Status <:+: msg

/-- A world that accepts every target, whose transport answers every request
with `resp`, and whose decoder refuses every body. -/
def answering (resp : Response) : World :=
  ⟨fun _ _ => none, fun _ _ => .ok resp, fun _ => .error (bytes "bad json"),
    fun _ => .error (bytes "bad json"), fun _ => .error (bytes "bad json"),
    fun _ => .error (bytes "bad json"), fun _ => .error (bytes "bad json")⟩

/-- The response `403 Forbidden` with a body. -/
def forbidden : Response := ⟨403, bytes "403 Forbidden", bytes "<html>no</html>"⟩

/-- The response `200 OK` with an empty body. -/
def okEmpty : Response := ⟨200, bytes "200 OK", []⟩

/-- A client for the base URL `http://j/`. -/
def client0 : Client := ⟨bytes "http://j/", bytes "admin", bytes "tok", ⟨⟩⟩

/-- The form `AddTemplate` encodes. -/
def addTemplateForm (name permissionIds : GoString) (overwrite : Bool) : Values :=
  Values.Set (Values.Set (Values.Set GoMap.empty (bytes "name") name)
    (bytes "permissionIds") permissionIds) (bytes "overwrite") (formatBool overwrite)

/-- The form `RemoveTemplates` encodes. -/
def removeTemplatesForm (names : List GoString) (force : Bool) : Values :=
  Values.Set (Values.Set GoMap.empty (bytes "names") (Join names (bytes ",")))
    (bytes "force") (formatBool force)

/-- The form `AddRole` encodes. -/
def addRoleForm (roleType : RoleType) (roleName permissionIds : GoString) (overwrite : Bool)
    (pattern template : GoString) : Values :=
  let v := Values.Set (Values.Set (Values.Set (Values.Set GoMap.empty (bytes "type") roleType)
    (bytes "roleName") roleName) (bytes "permissionIds") permissionIds)
    (bytes "overwrite") (formatBool overwrite)
  let v := if pattern ≠ [] then Values.Set v (bytes "pattern") pattern else v
  if template ≠ [] then Values.Set v (bytes "template") template else v

/-- The form `RemoveRoles` encodes. -/
def removeRolesForm (roleType : RoleType) (roleNames : List GoString) : Values :=
  Values.Set (Values.Set GoMap.empty (bytes "type") roleType)
    (bytes "roleNames") (Join roleNames (bytes ","))

/-- The form `assignRole` and `unassignRole` encode. -/
def sidRoleForm (roleType : RoleType) (roleName sid param : GoString) : Values :=
  Values.Set (Values.Set (Values.Set GoMap.empty (bytes "type") roleType)
    (bytes "roleName") roleName) param sid

/-- The form `deleteSid` encodes. -/
def deleteSidForm (roleType : RoleType) (sid : GoString) : Values :=
  Values.Set (Values.Set GoMap.empty (bytes "type") roleType) (bytes "user") sid

/-- Whether a map that may be nil holds the key `k`. -/
def hasKey {V : Type} (m : Option (GoMap V)) (k : GoString) : Bool :=
  match m with
  | none => false
  | some m => (m.get k).isSome

/-- The outcome `o` lists the key set of `m`: no error, every key of `m` exactly
once and nothing else, so that the list is a permutation of every duplicate-free
enumeration of the keys of `m`. -/
def listsKeys {V : Type} (m : Option (GoMap V)) (o : ReadOutcome (List GoString)) : Prop :=
  o.err = none ∧
  (o.val.getD []).Nodup ∧
  (∀ k, k ∈ o.val.getD [] ↔ hasKey m k = true) ∧
  ∀ ks : List GoString, ks.Nodup → (∀ k, k ∈ ks ↔ hasKey m k = true) →
    (o.val.getD []).Perm ks

/-- The mapping of scenario C, with the keys `dev-lead` and `admin`. -/
def twoRoles : GoMap (List JSONValue) :=
  ⟨[(bytes "dev-lead", []), (bytes "admin", [])], by decide⟩

/-- The response body of scenario C. -/
def twoRolesBody : GoString := bytes "\x7b\"dev-lead\": [], \"admin\": []\x7d"

/-- A world that accepts every target, answers every request with 200 and the
body of scenario C, and decodes that body to the mapping `twoRoles`. -/
def twoRolesWorld : World :=
  ⟨fun _ _ => none, fun _ _ => .ok ⟨200, bytes "200 OK", twoRolesBody⟩,
    fun _ => .error (bytes "bad json"), fun _ => .error (bytes "bad json"),
    fun b => if b = twoRolesBody then .ok (some twoRoles) else .error (bytes "bad json"),
    fun _ => .error (bytes "bad json"), fun _ => .error (bytes "bad json")⟩

/-- Method `Values.Add`: appends the value to the values of the key. -/
def Values.Add (v : Values) (p : GoString × GoString) : Values :=
  GoMap.set v p.1 ((GoMap.get v p.1).getD [] ++ [p.2])

/-- The pairs of a form in the order `Values.Encode` writes them: keys ascending,
the values of a key in their own order. -/
def formPairs (v : Values) : List (GoString × GoString) :=
  (sortStrings v.keys).flatMap (fun k => ((GoMap.get v k).getD []).map (fun x => (k, x)))

/-- The text `key=value` of a pair, both sides escaped. -/
def encodePair (p : GoString × GoString) : GoString :=
  QueryEscape p.1 ++ [ch '='] ++ QueryEscape p.2

/-- Appending a segment to the buffer of `Values.Encode`. -/
def appendSegment (buf seg : GoString) : GoString :=
  (if buf.length > 0 then buf ++ [ch '&'] else buf) ++ seg

/-- The outcome `o` of an operation on the client `c` handed the transport one
request: a POST to `BaseURL ++ path` whose body is a form with the content length
set to its size; the form decodes without error, holds under every key of `fields`
exactly the value given there, and holds nothing under the keys of `absent`. -/
def postsForm (c : Client) (o : WriteOutcome) (path : GoString)
    (fields : List (GoString × GoString)) (absent : List GoString) : Prop :=
  ∃ req body, o.sent = [req] ∧ req.Method = bytes "POST" ∧ req.URL = c.BaseURL ++ path ∧
    req.Body = some ⟨body⟩ ∧ req.ContentLength = (body.length : Int) ∧
    (ParseQuery body).2 = false ∧
    (∀ p ∈ fields, GoMap.get (ParseQuery body).1 p.1 = some [p.2]) ∧
    ∀ k ∈ absent, GoMap.get (ParseQuery body).1 k = none

/-- The world answers the client on a target: `http.NewRequest` accepts the method
and the target, and the transport of the client answers every request with that
method and that target with the response `resp`. -/
def answers (w : World) (c : Client) (method target : GoString) (resp : Response) : Prop :=
  w.newRequestErr method target = none ∧
  ∀ req : Request, req.Method = method → req.URL = target →
    w.Do c.HTTPClient req = .ok resp

/-! # Theorems -/

/-! ## Facts about the constructor -/

theorem bytes_slash : bytes "/" = [ch '/'] := by decide

theorem default_base_slash :
    (if ch 's' ≠ ch '/' then bytes "http://localhost:8080/jenkins" ++ bytes "/"
      else bytes "http://localhost:8080/jenkins") = bytes "http://localhost:8080/jenkins/" := by
  decide

theorem default_base_last :
    (bytes "http://localhost:8080/jenkins")[(bytes "http://localhost:8080/jenkins").length - 1]?
      = some (ch 's') := by decide

theorem NewClient_eq (baseURL username apiToken : GoString) :
    NewClient baseURL username apiToken
      = some ⟨normalized baseURL, username, apiToken, ⟨⟩⟩ := by
  unfold NewClient normalized
  by_cases h : baseURL = []
  · subst h
    simp only [if_true, default_base_last]
    exact congrArg (fun b => some (Client.mk b username apiToken ⟨⟩)) default_base_slash
  · simp only [if_neg h]
    rw [← List.getLast?_eq_getElem?]
    obtain ⟨l, hl⟩ : ∃ l, baseURL.getLast? = some l := by
      cases hb : baseURL.getLast? with
      | none => exact absurd (List.getLast?_eq_none_iff.1 hb) h
      | some l => exact ⟨l, rfl⟩
    rw [hl]
    by_cases hc : l = ch '/'
    · subst hc
      simp
    · have : ¬ (some l = some (ch '/')) := by simpa using hc
      simp [hc, bytes_slash]

theorem normalized_last (baseURL : GoString) :
    (normalized baseURL).getLast? = some (ch '/') := by
  unfold normalized
  by_cases h : baseURL = []
  · subst h
    decide
  · by_cases hc : baseURL.getLast? = some (ch '/')
    · simp [h, hc]
    · simp [h, hc]

/-! ## Facts about the request builder -/

theorem headerSet_nil (k x : GoString) : headerSet [] k x = [(k, x)] := rfl

theorem newRequest_refused (c : Client) (w : World) (method path body e : GoString)
    (h : w.newRequestErr method (c.BaseURL ++ path) = some e) :
    c.newRequest w method path body = .error e := by
  simp [Client.newRequest, httpNewRequest, h]

theorem newRequest_built (c : Client) (w : World) (method path body : GoString)
    (h : w.newRequestErr method (c.BaseURL ++ path) = none) :
    c.newRequest w method path body
      = .ok ⟨method, c.BaseURL ++ path, some (c.Username, c.APIToken),
          [(bytes "Content-Type", bytes "application/x-www-form-urlencoded")],
          if body ≠ [] then (body.length : Int) else 0,
          if body ≠ [] then some ⟨body⟩ else none⟩ := by
  by_cases hb : body = []
  · simp [Client.newRequest, httpNewRequest, h, hb, headerSet_nil]
  · simp [Client.newRequest, httpNewRequest, h, hb, headerSet_nil]

theorem newRequest_url (c : Client) (w : World) (method path body : GoString) (req : Request)
    (h : c.newRequest w method path body = .ok req) : req.URL = c.BaseURL ++ path := by
  cases hw : w.newRequestErr method (c.BaseURL ++ path) with
  | some e => rw [newRequest_refused c w method path body e hw] at h; cases h
  | none =>
    rw [newRequest_built c w method path body hw] at h
    cases h
    rfl

/-! ## Base URL normalization -/

/-- C6: for every base URL, the empty one included, `NewClient` returns a client (the
index `baseURL[len(baseURL)-1]` is never out of range) whose `BaseURL` ends with a
slash: the empty input gives `http://localhost:8080/jenkins/`, a non-empty input
that ends with a slash is kept as it is, and any other input gets exactly one
slash appended. -/
theorem NewClient_total (baseURL username apiToken : GoString) :
    ∃ c, NewClient baseURL username apiToken = some c ∧
      c.BaseURL.getLast? = some (ch '/') ∧
      c.BaseURL =
        (if baseURL = [] then bytes "http://localhost:8080/jenkins/"
         else if baseURL.getLast? = some (ch '/') then baseURL
         else baseURL ++ [ch '/']) ∧
      c.Username = username ∧ c.APIToken = apiToken :=
  ⟨_, NewClient_eq baseURL username apiToken, normalized_last baseURL, rfl, rfl, rfl⟩

/-- C5: for a non-empty base URL `b` that does not end with a slash, `NewClient b`
and `NewClient (b ++ "/")` both return a client, the two clients have the same
`BaseURL` (namely `b ++ "/"`), `newRequest` gives the same result on both for every
method, path and body, it builds a request exactly when `http.NewRequest` accepts
the target, and the target of the request built is `BaseURL ++ path`. -/
theorem NewClient_slash_irrelevant (b username apiToken : GoString)
    (hne : b ≠ []) (hs : b.getLast? ≠ some (ch '/')) :
    ∃ c1 c2, NewClient b username apiToken = some c1 ∧
      NewClient (b ++ bytes "/") username apiToken = some c2 ∧
      c1.BaseURL = c2.BaseURL ∧ c1.BaseURL = b ++ bytes "/" ∧
      ∀ (w : World) (method path body : GoString),
        c1.newRequest w method path body = c2.newRequest w method path body ∧
        (w.newRequestErr method (b ++ bytes "/" ++ path) = none →
          ∃ req, c1.newRequest w method path body = .ok req) ∧
        (∀ req, c1.newRequest w method path body = .ok req →
          req.URL = b ++ bytes "/" ++ path) := by
  have h1 : normalized b = b ++ bytes "/" := by
    simp [normalized, hne, hs, bytes_slash]
  have h2 : normalized (b ++ bytes "/") = b ++ bytes "/" := by
    simp [normalized, bytes_slash]
  refine ⟨_, _, NewClient_eq b username apiToken, NewClient_eq _ username apiToken, ?_, h1, ?_⟩
  · show normalized b = normalized (b ++ bytes "/")
    rw [h1, h2]
  · intro w method path body
    have hc : (⟨normalized b, username, apiToken, ⟨⟩⟩ : Client)
        = ⟨normalized (b ++ bytes "/"), username, apiToken, ⟨⟩⟩ := by rw [h1, h2]
    refine ⟨by rw [hc], ?_, ?_⟩
    · intro hw
      exact ⟨_, newRequest_built _ w method path body (by simpa [h1] using hw)⟩
    · intro req hreq
      have := newRequest_url _ w method path body req hreq
      simpa [h1] using this

/-- C5 at the base URL `http://j`. -/
theorem NewClient_slash_irrelevant_witness :
    bytes "http://j" ≠ [] ∧ (bytes "http://j").getLast? ≠ some (ch '/') ∧
    ∃ c1 c2, NewClient (bytes "http://j") (bytes "admin") (bytes "tok") = some c1 ∧
      NewClient (bytes "http://j" ++ bytes "/") (bytes "admin") (bytes "tok") = some c2 ∧
      c1.BaseURL = c2.BaseURL ∧ c1.BaseURL = bytes "http://j" ++ bytes "/" ∧
      ∀ (w : World) (method path body : GoString),
        c1.newRequest w method path body = c2.newRequest w method path body ∧
        (w.newRequestErr method (bytes "http://j" ++ bytes "/" ++ path) = none →
          ∃ req, c1.newRequest w method path body = .ok req) ∧
        (∀ req, c1.newRequest w method path body = .ok req →
          req.URL = bytes "http://j" ++ bytes "/" ++ path) :=
  ⟨by decide, by decide,
    NewClient_slash_irrelevant (bytes "http://j") (bytes "admin") (bytes "tok")
      (by decide) (by decide)⟩

/-! ## Texts inside a message -/

theorem infix_mid (a x b : GoString) : x <:+: a ++ x ++ b := ⟨a, b, rfl⟩

theorem infix_end (a x : GoString) : x <:+: a ++ x := ⟨a, [], by simp⟩

theorem infix_mid2 (a x b d : GoString) : x <:+: a ++ x ++ b ++ d :=
  ⟨a, b ++ d, by simp⟩

theorem infix_mid3 (a x b d e f : GoString) : x <:+: a ++ x ++ b ++ d ++ e ++ f :=
  ⟨a, b ++ d ++ e ++ f, by simp⟩

/-! ## The shape of each operation -/

theorem AddTemplate_shape (c : Client) (w : World) (name permissionIds : GoString)
    (overwrite : Bool) :
    c.AddTemplate w name permissionIds overwrite
      = writeTail c w (c.newRequest w (bytes "POST") (strategyPrefix ++ bytes "/addTemplate")
          (Values.Encode (addTemplateForm name permissionIds overwrite)))
        (fun resp => bytes "add template failed: " ++ formatInt resp.StatusCode ++ bytes " " ++
          resp.Status ++ bytes ": " ++ resp.Body) := rfl

theorem RemoveTemplates_shape (c : Client) (w : World) (names : List GoString) (force : Bool) :
    c.RemoveTemplates w names force
      = writeTail c w (c.newRequest w (bytes "POST") (strategyPrefix ++ bytes "/removeTemplates")
          (Values.Encode (removeTemplatesForm names force)))
        (fun resp => bytes "remove templates failed: " ++ formatInt resp.StatusCode ++ bytes " " ++
          resp.Status) := rfl

theorem AddRole_shape (c : Client) (w : World) (roleType : RoleType)
    (roleName permissionIds : GoString) (overwrite : Bool) (pattern template : GoString) :
    c.AddRole w roleType roleName permissionIds overwrite pattern template
      = writeTail c w (c.newRequest w (bytes "POST") (strategyPrefix ++ bytes "/addRole")
          (Values.Encode (addRoleForm roleType roleName permissionIds overwrite pattern template)))
        (fun resp => bytes "add role failed: " ++ formatInt resp.StatusCode ++ bytes " " ++
          resp.Status) := rfl

theorem RemoveRoles_shape (c : Client) (w : World) (roleType : RoleType)
    (roleNames : List GoString) :
    c.RemoveRoles w roleType roleNames
      = writeTail c w (c.newRequest w (bytes "POST") (strategyPrefix ++ bytes "/removeRoles")
          (Values.Encode (removeRolesForm roleType roleNames)))
        (fun resp => bytes "remove roles failed: " ++ formatInt resp.StatusCode ++ bytes " " ++
          resp.Status) := rfl

theorem assignRole_shape (c : Client) (w : World) (roleType : RoleType)
    (roleName sid param : GoString) :
    c.assignRole w roleType roleName sid param
      = writeTail c w (c.newRequest w (bytes "POST")
          (strategyPrefix ++ bytes "/" ++
            (if param = bytes "group" then bytes "assignGroupRole" else bytes "assignUserRole"))
          (Values.Encode (sidRoleForm roleType roleName sid param)))
        (fun resp => bytes "assign " ++ param ++ bytes " failed: " ++
          formatInt resp.StatusCode ++ bytes " " ++ resp.Status) := rfl

theorem unassignRole_shape (c : Client) (w : World) (roleType : RoleType)
    (roleName sid param : GoString) :
    c.unassignRole w roleType roleName sid param
      = writeTail c w (c.newRequest w (bytes "POST")
          (strategyPrefix ++ bytes "/" ++
            (if param = bytes "group" then bytes "unassignGroupRole"
              else bytes "unassignUserRole"))
          (Values.Encode (sidRoleForm roleType roleName sid param)))
        (fun resp => bytes "unassign " ++ param ++ bytes " failed: " ++
          formatInt resp.StatusCode ++ bytes " " ++ resp.Status) := rfl

theorem deleteSid_shape (c : Client) (w : World) (roleType : RoleType)
    (sid endpoint : GoString) :
    c.deleteSid w roleType sid endpoint
      = writeTail c w (c.newRequest w (bytes "POST") (strategyPrefix ++ bytes "/" ++ endpoint)
          (Values.Encode (deleteSidForm roleType sid)))
        (fun resp => endpoint ++ bytes " failed: " ++ formatInt resp.StatusCode ++ bytes " " ++
          resp.Status) := rfl

/-! ## The shape of each read operation -/

theorem GetTemplate_shape (c : Client) (w : World) (name : GoString) :
    c.GetTemplate w name
      = readTail c w (c.newRequest w (bytes "GET")
          (strategyPrefix ++ bytes "/getTemplate?name=" ++ QueryEscape name) [])
        (fun resp => bytes "get template failed: " ++ formatInt resp.StatusCode ++ bytes " " ++
          resp.Status) w.decodeTemplate some := by
  unfold Client.GetTemplate readTail
  simp only []
  generalize c.newRequest w _ _ _ = r
  cases r with
  | error e => rfl
  | ok rq =>
    simp only
    cases w.Do c.HTTPClient rq with
    | error e => rfl
    | ok resp =>
      simp only
      split
      · rfl
      · cases w.decodeTemplate resp.Body <;> rfl

theorem GetRole_shape (c : Client) (w : World) (roleType : RoleType) (roleName : GoString) :
    c.GetRole w roleType roleName
      = readTail c w (c.newRequest w (bytes "GET")
          (strategyPrefix ++ bytes "/getRole?type=" ++ QueryEscape roleType ++
            bytes "&roleName=" ++ QueryEscape roleName) [])
        (fun resp => bytes "get role failed: " ++ formatInt resp.StatusCode ++ bytes " " ++
          resp.Status) w.decodeRole some := by
  unfold Client.GetRole readTail
  simp only []
  generalize c.newRequest w _ _ _ = r
  cases r with
  | error e => rfl
  | ok rq =>
    simp only
    cases w.Do c.HTTPClient rq with
    | error e => rfl
    | ok resp =>
      simp only
      split
      · rfl
      · cases w.decodeRole resp.Body <;> rfl

theorem GetAllRoles_shape (c : Client) (w : World) (roleType : RoleType) :
    c.GetAllRoles w roleType
      = readTail c w (c.newRequest w (bytes "GET")
          (strategyPrefix ++ bytes "/getAllRoles?type=" ++ QueryEscape roleType) [])
        (fun resp => bytes "get all roles failed: " ++ formatInt resp.StatusCode ++ bytes " " ++
          resp.Status) w.decodeRoles id := by
  unfold Client.GetAllRoles readTail
  simp only []
  generalize c.newRequest w _ _ _ = r
  cases r with
  | error e => rfl
  | ok rq =>
    simp only
    cases w.Do c.HTTPClient rq with
    | error e => rfl
    | ok resp =>
      simp only
      split
      · rfl
      · cases w.decodeRoles resp.Body <;> rfl

theorem GetRoleAssignments_shape (c : Client) (w : World) (roleType : RoleType) :
    c.GetRoleAssignments w roleType
      = readTail c w (c.newRequest w (bytes "GET")
          (strategyPrefix ++ bytes "/getRoleAssignments?type=" ++ QueryEscape roleType) [])
        (fun resp => bytes "get role assignments failed: " ++ formatInt resp.StatusCode ++
          bytes " " ++ resp.Status) w.decodeAssignments id := by
  unfold Client.GetRoleAssignments readTail
  simp only []
  generalize c.newRequest w _ _ _ = r
  cases r with
  | error e => rfl
  | ok rq =>
    simp only
    cases w.Do c.HTTPClient rq with
    | error e => rfl
    | ok resp =>
      simp only
      split
      · rfl
      · cases w.decodeAssignments resp.Body <;> rfl

theorem GetMatchingJobs_shape (c : Client) (w : World) (pattern : GoString) (maxJobs : Int) :
    c.GetMatchingJobs w pattern maxJobs
      = readTail c w (c.newRequest w (bytes "GET")
          (strategyPrefix ++ bytes "/getMatchingJobs?pattern=" ++ QueryEscape pattern ++
            bytes "&maxJobs=" ++ formatInt maxJobs) [])
        (fun resp => bytes "get matching jobs failed: " ++ formatInt resp.StatusCode ++
          bytes " " ++ resp.Status) w.decodeItems id := by
  unfold Client.GetMatchingJobs readTail
  simp only []
  generalize c.newRequest w _ _ _ = r
  cases r with
  | error e => rfl
  | ok rq =>
    simp only
    cases w.Do c.HTTPClient rq with
    | error e => rfl
    | ok resp =>
      simp only
      split
      · rfl
      · cases w.decodeItems resp.Body <;> rfl

theorem GetMatchingAgents_shape (c : Client) (w : World) (pattern : GoString)
    (maxAgents : Int) :
    c.GetMatchingAgents w pattern maxAgents
      = readTail c w (c.newRequest w (bytes "GET")
          (strategyPrefix ++ bytes "/getMatchingAgents?pattern=" ++ QueryEscape pattern ++
            bytes "&maxAgents=" ++ formatInt maxAgents) [])
        (fun resp => bytes "get matching agents failed: " ++ formatInt resp.StatusCode ++
          bytes " " ++ resp.Status) w.decodeItems id := by
  unfold Client.GetMatchingAgents readTail
  simp only []
  generalize c.newRequest w _ _ _ = r
  cases r with
  | error e => rfl
  | ok rq =>
    simp only
    cases w.Do c.HTTPClient rq with
    | error e => rfl
    | ok resp =>
      simp only
      split
      · rfl
      · cases w.decodeItems resp.Body <;> rfl

/-! ## C4 -/

theorem GoMap.get_isSome_iff {V : Type} (m : GoMap V) (k : GoString) :
    (m.get k).isSome = true ↔ k ∈ m.keys := by
  unfold GoMap.get GoMap.keys
  rw [show ∀ o : Option (GoString × V), (o.map Prod.snd).isSome = o.isSome from
    fun o => by cases o <;> rfl, List.find?_isSome, List.mem_map]
  constructor
  · rintro ⟨e, he, hk⟩
    exact ⟨e, he, by simpa using hk⟩
  · rintro ⟨e, he, hk⟩
    exact ⟨e, he, by simpa using hk⟩

theorem foldl_append_keys {V : Type} (es : List (GoString × V)) (acc : Option (List GoString)) :
    (es.foldl (fun roleNames e => some (roleNames.getD [] ++ [e.1])) acc).getD []
      = acc.getD [] ++ es.map Prod.fst := by
  induction es generalizing acc with
  | nil => simp
  | cons e es ih =>
    rw [List.foldl_cons, ih]
    simp

theorem rangeKeys_none (m : Option (GoMap (List JSONValue))) :
    (rangeKeys m none).getD [] = (m.map GoMap.keys).getD [] := by
  cases m with
  | none => rfl
  | some m =>
    show (m.entries.foldl _ none).getD [] = m.keys
    rw [foldl_append_keys]
    simp [GoMap.keys]

theorem getRoleNames_lists (c : Client) (w : World) (roleType : RoleType)
    (m : Option (GoMap (List JSONValue)))
    (herr : (c.GetAllRoles w roleType).err = none)
    (hval : (c.GetAllRoles w roleType).val = m) :
    listsKeys m (c.getRoleNames w roleType) := by
  have hnames : (c.getRoleNames w roleType).val.getD []
      = (m.map GoMap.keys).getD [] := by
    unfold Client.getRoleNames
    simp only [herr, hval]
    exact rangeKeys_none m
  have herr2 : (c.getRoleNames w roleType).err = none := by
    unfold Client.getRoleNames
    simp only [herr]
  have hnd : ((c.getRoleNames w roleType).val.getD []).Nodup := by
    rw [hnames]
    cases m with
    | none => exact List.nodup_nil
    | some m => exact m.nodup
  have hmem : ∀ k, k ∈ (c.getRoleNames w roleType).val.getD [] ↔ hasKey m k = true := by
    intro k
    rw [hnames]
    cases m with
    | none => simp [hasKey]
    | some m => exact (GoMap.get_isSome_iff m k).symm
  refine ⟨herr2, hnd, hmem, ?_⟩
  intro ks hks hk
  exact (List.perm_ext_iff_of_nodup hnd hks).2 (fun a => (hmem a).trans (hk a).symm)

/-- C4: when `GetAllRoles(GlobalRole)` succeeds with the mapping `m`, `GetGlobalRoleNames`
returns no error and a list holding every key of `m` exactly once and nothing else,
a permutation of every enumeration of the key set of `m`; likewise for
`GetAllRoles(ProjectRole)` and `GetProjectRoleNames`. -/
theorem role_names_list_key_set (c : Client) (w : World)
    (m : Option (GoMap (List JSONValue))) :
    ((c.GetAllRoles w GlobalRole).err = none → (c.GetAllRoles w GlobalRole).val = m →
      listsKeys m (c.GetGlobalRoleNames w)) ∧
    ((c.GetAllRoles w ProjectRole).err = none → (c.GetAllRoles w ProjectRole).val = m →
      listsKeys m (c.GetProjectRoleNames w)) :=
  ⟨getRoleNames_lists c w GlobalRole m, getRoleNames_lists c w ProjectRole m⟩

/-- C4 on scenario C: the server answers `GetAllRoles` with the keys `dev-lead` and
`admin`, and `GetGlobalRoleNames` returns a list of two elements that is a
permutation of those two names. -/
theorem role_names_list_key_set_witness :
    (client0.GetAllRoles twoRolesWorld GlobalRole).err = none ∧
    (client0.GetAllRoles twoRolesWorld GlobalRole).val = some twoRoles ∧
    (client0.GetGlobalRoleNames twoRolesWorld).err = none ∧
    ((client0.GetGlobalRoleNames twoRolesWorld).val.getD []).length = 2 ∧
    ((client0.GetGlobalRoleNames twoRolesWorld).val.getD []).Perm
      [bytes "admin", bytes "dev-lead"] := by
  have herr : (client0.GetAllRoles twoRolesWorld GlobalRole).err = none := by decide
  have hval : (client0.GetAllRoles twoRolesWorld GlobalRole).val = some twoRoles := rfl
  have h := (role_names_list_key_set client0 twoRolesWorld (some twoRoles)).1 herr hval
  refine ⟨herr, hval, h.1, by decide, h.2.2.2 _ (by decide) ?_⟩
  intro k
  have hk : hasKey (some twoRoles) k = true ↔ k ∈ twoRoles.keys :=
    GoMap.get_isSome_iff twoRoles k
  rw [hk]
  have hkeys : twoRoles.keys = [bytes "dev-lead", bytes "admin"] := rfl
  rw [hkeys]
  simp only [List.mem_cons, List.mem_singleton, List.not_mem_nil, or_false]
  exact or_comm

/-! ## net/url: escaping and unescaping -/

set_option maxRecDepth 100000 in
theorem escapeByte_cases : ∀ b : Byte,
    (escapeByte b = [b] ∧ b ≠ ch '%' ∧ b ≠ ch '+') ∨
    (escapeByte b = [ch '+'] ∧ b = ch ' ') ∨
    (escapeByte b = [ch '%', upperhex (b.val >>> 4), upperhex (b.val &&& 15)] ∧
      ishex (upperhex (b.val >>> 4)) = true ∧ ishex (upperhex (b.val &&& 15)) = true ∧
      (Fin.ofNat ((unhex (upperhex (b.val >>> 4))).val <<< 4 |||
        (unhex (upperhex (b.val &&& 15))).val) : Byte) = b) := by
  decide

set_option maxRecDepth 100000 in
theorem escapeByte_all_safe : ∀ b : Byte,
    (escapeByte b).all (fun c => c ≠ ch '&' && c ≠ ch '=' && c ≠ ch ';') = true := by
  decide

theorem QueryEscape_cons (b : Byte) (s : GoString) :
    QueryEscape (b :: s) = escapeByte b ++ QueryEscape s := by
  simp [QueryEscape]

/-- An escaped string holds no ampersand, no equals sign and no semicolon. -/
theorem QueryEscape_safe (s : GoString) (c : Byte)
    (hc : c = ch '&' ∨ c = ch '=' ∨ c = ch ';') : c ∉ QueryEscape s := by
  induction s with
  | nil => simp [QueryEscape]
  | cons b s ih =>
    rw [QueryEscape_cons, List.mem_append]
    rintro (h | h)
    · have hall := escapeByte_all_safe b
      rw [List.all_eq_true] at hall
      have hb := hall c h
      simp only [Bool.and_eq_true, decide_eq_true_eq] at hb
      rcases hc with hc | hc | hc
      · exact hb.1.1 hc
      · exact hb.1.2 hc
      · exact hb.2 hc
    · exact ih h

theorem plus_ne_percent : ch '+' ≠ ch '%' := by decide

theorem QueryUnescape_escapeByte (b : Byte) (t : GoString) :
    QueryUnescape (escapeByte b ++ t) = (QueryUnescape t).map (fun r => b :: r) := by
  rcases escapeByte_cases b with ⟨h, h1, h2⟩ | ⟨h, h1⟩ | ⟨h, h1, h2, h3⟩
  · rw [h]
    show QueryUnescape (b :: t) = _
    conv_lhs => unfold QueryUnescape
    simp [h1, h2]
  · rw [h, h1]
    show QueryUnescape (ch '+' :: t) = _
    conv_lhs => unfold QueryUnescape
    simp [plus_ne_percent]
  · rw [h]
    simp [QueryUnescape, h1, h2, h3]

/-- Unescaping undoes escaping. -/
theorem QueryUnescape_QueryEscape (s : GoString) : QueryUnescape (QueryEscape s) = some s := by
  induction s with
  | nil => rfl
  | cons b s ih => rw [QueryEscape_cons, QueryUnescape_escapeByte, ih]; rfl

theorem cut_append (sep : Byte) (a b : GoString) (h : sep ∉ a) :
    cut sep (a ++ sep :: b) = (a, b, true) := by
  induction a with
  | nil => simp [cut]
  | cons c a ih =>
    have hc : c ≠ sep := fun e => h (by simp [e])
    have ha : sep ∉ a := fun e => h (List.mem_cons_of_mem _ e)
    simp [cut, hc, ih ha]

/-! ## Sorting the keys -/

theorem insertSorted_perm (k : GoString) (l : List GoString) :
    (insertSorted k l).Perm (k :: l) := by
  induction l with
  | nil => exact List.Perm.refl _
  | cons x xs ih =>
    unfold insertSorted
    split
    · exact List.Perm.refl _
    · exact (List.Perm.cons x ih).trans (List.Perm.swap k x xs)

theorem sortStrings_perm (l : List GoString) : (sortStrings l).Perm l := by
  induction l with
  | nil => exact List.Perm.refl _
  | cons k l ih =>
    show (insertSorted k (sortStrings l)).Perm (k :: l)
    exact (insertSorted_perm k _).trans (List.Perm.cons k ih)

/-! ## Maps: reading after writing -/

theorem GoMap.get_empty {V : Type} (k : GoString) : (GoMap.empty : GoMap V).get k = none := rfl

theorem GoMap.get_set {V : Type} (m : GoMap V) (k k2 : GoString) (x : V) :
    (m.set k x).get k2 = if k2 = k then some x else m.get k2 := by
  unfold GoMap.get GoMap.set
  by_cases h : k2 = k
  · subst h
    simp
  · have hk : ¬ (k = k2) := fun e => h e.symm
    simp only [List.find?_cons, hk, decide_False, if_neg h, List.find?_filter]
    congr 2
    funext e
    by_cases he : e.1 = k2
    · have : e.1 ≠ k := fun e2 => h (he.symm.trans e2)
      simp [he, this, h]
    · simp [he]

/-! ## Encoding a form -/

theorem intercalate_cons (c : Byte) (p : GoString) (ps : List GoString) :
    [c].intercalate (p :: ps) = p ++ ps.flatMap (fun q => c :: q) := by
  induction ps generalizing p with
  | nil => simp [List.intercalate]
  | cons q qs ih =>
    have h := ih q
    simp only [List.intercalate, List.intersperse, List.flatten_cons, List.flatMap_cons] at h ⊢
    rw [h]
    simp

theorem foldl_appendSegment_ne (ps : List GoString) (buf : GoString) (hb : buf ≠ []) :
    ps.foldl appendSegment buf = buf ++ ps.flatMap (fun q => ch '&' :: q) := by
  induction ps generalizing buf with
  | nil => simp
  | cons p ps ih =>
    have hpos : buf.length > 0 := List.length_pos.2 hb
    have hstep : appendSegment buf p = buf ++ ch '&' :: p := by
      simp [appendSegment, hpos]
    rw [List.foldl_cons, hstep, ih _ (by simp [hb])]
    simp

theorem foldl_appendSegment (ps : List GoString) (hne : ∀ p ∈ ps, p ≠ []) :
    ps.foldl appendSegment [] = [ch '&'].intercalate ps := by
  cases ps with
  | nil => rfl
  | cons p ps =>
    have hp : p ≠ [] := hne p (List.mem_cons_self _ _)
    have hstep : appendSegment [] p = p := by simp [appendSegment]
    rw [List.foldl_cons, hstep, foldl_appendSegment_ne ps p hp, intercalate_cons]

theorem encodePair_ne (p : GoString × GoString) : encodePair p ≠ [] := by
  simp [encodePair]

theorem foldl_keys_eq (v : Values) (ks : List GoString) (buf : GoString) :
    ks.foldl (fun buf k =>
      ((GoMap.get v k).getD []).foldl (fun buf x =>
        (if buf.length > 0 then buf ++ [ch '&'] else buf) ++ QueryEscape k ++ [ch '='] ++
          QueryEscape x) buf) buf
      = ((ks.flatMap (fun k => ((GoMap.get v k).getD []).map (fun x => (k, x)))).map
          encodePair).foldl appendSegment buf := by
  induction ks generalizing buf with
  | nil => rfl
  | cons k ks ih =>
    rw [List.foldl_cons, ih, List.flatMap_cons, List.map_append, List.foldl_append]
    congr 1
    rw [List.map_map, List.foldl_map]
    congr 1
    funext b x
    simp [appendSegment, encodePair, List.append_assoc]

/-- The encoded form is the text of its pairs joined by ampersands. -/
theorem Encode_eq (v : Values) :
    Values.Encode v = [ch '&'].intercalate ((formPairs v).map encodePair) := by
  unfold Values.Encode
  by_cases h : v.entries.length = 0
  · have he : v.entries = [] := List.length_eq_zero.1 h
    have hk : v.keys = [] := by simp [GoMap.keys, he]
    simp [h, formPairs, hk, sortStrings, List.intercalate]
  · simp only [if_neg h]
    rw [foldl_keys_eq v (sortStrings v.keys) []]
    exact foldl_appendSegment _ (fun p hp => by
      rcases List.mem_map.1 hp with ⟨q, _, rfl⟩
      exact encodePair_ne q)

/-! ## Parsing an encoded form -/

theorem semicolon_ne_equals : ch ';' ≠ ch '=' := by decide

theorem ampersand_ne_equals : ch '&' ≠ ch '=' := by decide

theorem encodePair_no (p : GoString × GoString) (c : Byte)
    (hc : c = ch '&' ∨ c = ch ';') : c ∉ encodePair p := by
  have h1 : c ∉ QueryEscape p.1 :=
    QueryEscape_safe _ c (hc.elim Or.inl (fun h => Or.inr (Or.inr h)))
  have h2 : c ∉ QueryEscape p.2 :=
    QueryEscape_safe _ c (hc.elim Or.inl (fun h => Or.inr (Or.inr h)))
  have h3 : c ≠ ch '=' := by
    rcases hc with hc | hc
    · rw [hc]; exact ampersand_ne_equals
    · rw [hc]; exact semicolon_ne_equals
  simp [encodePair, h1, h2, h3]

theorem parseSegment_encodePair (st : Values × Bool) (p : GoString × GoString) :
    parseSegment st (encodePair p) = (Values.Add st.1 p, st.2) := by
  have hsemi : ch ';' ∉ encodePair p := encodePair_no p _ (Or.inr rfl)
  have hcut : cut (ch '=') (encodePair p) = (QueryEscape p.1, QueryEscape p.2, true) := by
    unfold encodePair
    rw [List.append_assoc]
    exact cut_append _ _ _ (QueryEscape_safe _ _ (Or.inr (Or.inl rfl)))
  unfold parseSegment
  simp only [hsemi, if_false, encodePair_ne p, hcut, QueryUnescape_QueryEscape]
  rfl

theorem foldl_parseSegment (ps : List (GoString × GoString)) (st : Values × Bool) :
    (ps.map encodePair).foldl parseSegment st = (ps.foldl Values.Add st.1, st.2) := by
  induction ps generalizing st with
  | nil => rfl
  | cons p ps ih => rw [List.map_cons, List.foldl_cons, parseSegment_encodePair, ih]; rfl

theorem ParseQuery_pairs (ps : List (GoString × GoString)) :
    ParseQuery ([ch '&'].intercalate (ps.map encodePair))
      = (ps.foldl Values.Add GoMap.empty, false) := by
  unfold ParseQuery
  cases ps with
  | nil => rfl
  | cons p ps =>
    rw [List.splitOn_intercalate _ (ch '&')
      (fun l hl => by
        rcases List.mem_map.1 hl with ⟨q, _, rfl⟩
        exact encodePair_no q _ (Or.inl rfl))
      (by simp)]
    exact foldl_parseSegment (p :: ps) (GoMap.empty, false)

theorem get_Add (m : Values) (p : GoString × GoString) (k : GoString) :
    GoMap.get (Values.Add m p) k
      = if k = p.1 then some ((GoMap.get m p.1).getD [] ++ [p.2]) else GoMap.get m k :=
  GoMap.get_set m p.1 k _

theorem getD_foldl_Add (ps : List (GoString × GoString)) (m : Values) (k : GoString) :
    (GoMap.get (ps.foldl Values.Add m) k).getD []
      = (GoMap.get m k).getD [] ++ (ps.filter (fun p => p.1 = k)).map Prod.snd := by
  induction ps generalizing m with
  | nil => simp
  | cons p ps ih =>
    rw [List.foldl_cons, ih, get_Add]
    by_cases h : k = p.1
    · subst h
      simp
    · have h2 : ¬ (p.1 = k) := fun e => h e.symm
      simp [h, h2]

theorem isSome_foldl_Add (ps : List (GoString × GoString)) (m : Values) (k : GoString) :
    (GoMap.get (ps.foldl Values.Add m) k).isSome = true
      ↔ (GoMap.get m k).isSome = true ∨ ps.filter (fun p => p.1 = k) ≠ [] := by
  induction ps generalizing m with
  | nil => simp
  | cons p ps ih =>
    rw [List.foldl_cons, ih, get_Add]
    by_cases h : k = p.1
    · subst h
      simp
    · have h2 : ¬ (p.1 = k) := fun e => h e.symm
      simp [h, h2]

theorem filter_flatMap_keys (ks : List GoString) (f : GoString → List GoString)
    (k : GoString) (hnd : ks.Nodup) :
    ((ks.flatMap (fun k2 => (f k2).map (fun x => (k2, x)))).filter (fun p => p.1 = k)).map
        Prod.snd
      = if k ∈ ks then f k else [] := by
  induction ks with
  | nil => simp
  | cons k2 ks ih =>
    have hnd2 := List.nodup_cons.1 hnd
    rw [List.flatMap_cons, List.filter_append, List.map_append, ih hnd2.2]
    by_cases h : k2 = k
    · subst h
      have hfil : ((f k2).map (fun x => (k2, x))).filter (fun p => p.1 = k2)
          = (f k2).map (fun x => (k2, x)) := by
        apply List.filter_eq_self.2
        intro a ha
        rcases List.mem_map.1 ha with ⟨x, _, rfl⟩
        simp
      rw [hfil]
      simp [hnd2.1]
    · have hfil : ((f k2).map (fun x => (k2, x))).filter (fun p => p.1 = k) = [] := by
        apply List.filter_eq_nil_iff.2
        intro a ha
        rcases List.mem_map.1 ha with ⟨x, _, rfl⟩
        simp [h]
      have hk : ¬ (k = k2) := fun e => h e.symm
      rw [hfil]
      simp [hk]

theorem filter_formPairs (v : Values) (k : GoString) :
    ((formPairs v).filter (fun p => p.1 = k)).map Prod.snd = (GoMap.get v k).getD [] := by
  unfold formPairs
  rw [filter_flatMap_keys _ (fun k => (GoMap.get v k).getD []) k
    ((sortStrings_perm v.keys).nodup_iff.2 v.nodup)]
  by_cases h : k ∈ sortStrings v.keys
  · simp [h]
  · have hk : k ∉ v.keys := fun e => h ((sortStrings_perm v.keys).mem_iff.2 e)
    have hget : GoMap.get v k = none := by
      cases hg : GoMap.get v k with
      | none => rfl
      | some x =>
        exact absurd ((GoMap.get_isSome_iff v k).1 (by rw [hg]; rfl)) hk
    simp [h, hget]

/-- Decoding an encoded form gives the form back: `url.ParseQuery` reports no
error on the text `Values.Encode` writes, and under every key it finds the values
the form holds under that key (a key without values is not written). -/
theorem ParseQuery_Encode (v : Values) (k : GoString) :
    (ParseQuery (Values.Encode v)).2 = false ∧
    GoMap.get (ParseQuery (Values.Encode v)).1 k
      = if (GoMap.get v k).getD [] = [] then none else some ((GoMap.get v k).getD []) := by
  rw [Encode_eq, ParseQuery_pairs]
  refine ⟨rfl, ?_⟩
  have hD := getD_foldl_Add (formPairs v) GoMap.empty k
  have hS := isSome_foldl_Add (formPairs v) GoMap.empty k
  rw [GoMap.get_empty] at hD hS
  rw [filter_formPairs] at hD
  have hfil : (formPairs v).filter (fun p => p.1 = k) ≠ [] ↔ (GoMap.get v k).getD [] ≠ [] := by
    rw [← filter_formPairs v k]
    simp
  simp only [Option.getD_none, List.nil_append] at hD
  simp only [Option.isSome_none, Bool.false_eq_true, false_or] at hS
  rw [hfil] at hS
  show GoMap.get (List.foldl Values.Add GoMap.empty (formPairs v)) k = _
  cases hg : GoMap.get (List.foldl Values.Add GoMap.empty (formPairs v)) k with
  | none =>
    rw [hg] at hS hD
    have : (GoMap.get v k).getD [] = [] := by
      by_contra hne
      have := hS.2 hne
      simp at this
    simp [this]
  | some xs =>
    rw [hg] at hS hD
    have hne : (GoMap.get v k).getD [] ≠ [] := hS.1 rfl
    simp only [Option.getD_some] at hD
    simp [hne, hD]

theorem ParseQuery_Encode_single (v : Values) (k x : GoString)
    (h : GoMap.get v k = some [x]) :
    GoMap.get (ParseQuery (Values.Encode v)).1 k = some [x] := by
  rw [(ParseQuery_Encode v k).2, h]
  simp

theorem ParseQuery_Encode_absent (v : Values) (k : GoString) (h : GoMap.get v k = none) :
    GoMap.get (ParseQuery (Values.Encode v)).1 k = none := by
  rw [(ParseQuery_Encode v k).2, h]
  simp

/-! ## The request a write operation posts -/

theorem writeTail_sent (c : Client) (w : World) (req : Request)
    (failure : Response → GoError) : (writeTail c w (.ok req) failure).sent = [req] := by
  unfold writeTail
  simp only
  cases w.Do c.HTTPClient req with
  | error e => rfl
  | ok rs =>
    simp only
    split <;> rfl

theorem Encode_ne_nil (v : Values) (k x : GoString) (h : GoMap.get v k = some [x]) :
    Values.Encode v ≠ [] := by
  intro he
  have hp := ParseQuery_Encode_single v k x h
  rw [he] at hp
  cases hp

theorem writeTail_postsForm (c : Client) (w : World) (path : GoString) (form : Values)
    (failure : Response → GoError) (fields : List (GoString × GoString))
    (absent : List GoString) (k x : GoString) (hkx : GoMap.get form k = some [x])
    (hok : w.newRequestErr (bytes "POST") (c.BaseURL ++ path) = none)
    (hf : ∀ p ∈ fields, GoMap.get form p.1 = some [p.2])
    (ha : ∀ k ∈ absent, GoMap.get form k = none) :
    postsForm c (writeTail c w (c.newRequest w (bytes "POST") path (Values.Encode form)) failure)
      path fields absent := by
  have hne : Values.Encode form ≠ [] := Encode_ne_nil form k x hkx
  rw [newRequest_built c w _ path _ hok]
  simp only [hne, ne_eq, not_false_eq_true, if_true]
  exact ⟨_, Values.Encode form, writeTail_sent c w _ failure, rfl, rfl, rfl, rfl,
    (ParseQuery_Encode form []).1,
    fun p hp => ParseQuery_Encode_single form p.1 p.2 (hf p hp),
    fun k hk => ParseQuery_Encode_absent form k (ha k hk)⟩

theorem sidRoleForm_user (roleType : RoleType) (roleName sid : GoString) :
    (∀ p ∈ [(bytes "type", roleType), (bytes "roleName", roleName), (bytes "user", sid)],
      GoMap.get (sidRoleForm roleType roleName sid (bytes "user")) p.1 = some [p.2]) ∧
    ∀ k ∈ [bytes "group"], GoMap.get (sidRoleForm roleType roleName sid (bytes "user")) k = none := by
  constructor
  · intro p hp
    simp only [List.mem_cons, List.mem_singleton, List.not_mem_nil, or_false] at hp
    rcases hp with rfl | rfl | rfl <;> rfl
  · intro k hk
    simp only [List.mem_singleton] at hk
    subst hk
    rfl

theorem sidRoleForm_group (roleType : RoleType) (roleName sid : GoString) :
    (∀ p ∈ [(bytes "type", roleType), (bytes "roleName", roleName), (bytes "group", sid)],
      GoMap.get (sidRoleForm roleType roleName sid (bytes "group")) p.1 = some [p.2]) ∧
    ∀ k ∈ [bytes "user"], GoMap.get (sidRoleForm roleType roleName sid (bytes "group")) k = none := by
  constructor
  · intro p hp
    simp only [List.mem_cons, List.mem_singleton, List.not_mem_nil, or_false] at hp
    rcases hp with rfl | rfl | rfl <;> rfl
  · intro k hk
    simp only [List.mem_singleton] at hk
    subst hk
    rfl

theorem deleteSidForm_fields (roleType : RoleType) (sid : GoString) :
    (∀ p ∈ [(bytes "type", roleType), (bytes "user", sid)],
      GoMap.get (deleteSidForm roleType sid) p.1 = some [p.2]) ∧
    ∀ k ∈ [bytes "group"], GoMap.get (deleteSidForm roleType sid) k = none := by
  constructor
  · intro p hp
    simp only [List.mem_cons, List.mem_singleton, List.not_mem_nil, or_false] at hp
    rcases hp with rfl | rfl <;> rfl
  · intro k hk
    simp only [List.mem_singleton] at hk
    subst hk
    rfl

theorem endpoint_paths :
    strategyPrefix ++ bytes "/" ++
        (if bytes "user" = bytes "group" then bytes "assignGroupRole" else bytes "assignUserRole")
      = bytes "role-strategy/strategy/assignUserRole" ∧
    strategyPrefix ++ bytes "/" ++
        (if bytes "group" = bytes "group" then bytes "assignGroupRole" else bytes "assignUserRole")
      = bytes "role-strategy/strategy/assignGroupRole" ∧
    strategyPrefix ++ bytes "/" ++
        (if bytes "user" = bytes "group" then bytes "unassignGroupRole"
          else bytes "unassignUserRole")
      = bytes "role-strategy/strategy/unassignUserRole" ∧
    strategyPrefix ++ bytes "/" ++
        (if bytes "group" = bytes "group" then bytes "unassignGroupRole"
          else bytes "unassignUserRole")
      = bytes "role-strategy/strategy/unassignGroupRole" ∧
    strategyPrefix ++ bytes "/" ++ bytes "deleteUser"
      = bytes "role-strategy/strategy/deleteUser" ∧
    strategyPrefix ++ bytes "/" ++ bytes "deleteGroup"
      = bytes "role-strategy/strategy/deleteGroup" := by
  decide

/-! ## C9 -/

/-- C9: for every role type, role name and identifier, whenever `http.NewRequest`
accepts the target: `AssignUserRole` posts to `role-strategy/strategy/assignUserRole`
with the identifier under the key `user` (and no key `group`), `AssignGroupRole`
posts to `assignGroupRole` with the key `group` (and no key `user`), `UnassignUserRole`
posts to `unassignUserRole` with the key `user`, `UnassignGroupRole` posts to
`unassignGroupRole` with the key `group`, and `DeleteUser` and `DeleteGroup` post to
`deleteUser` and `deleteGroup`, both with the identifier under the key `user`. -/
theorem sid_kind_selects_endpoint (c : Client) (w : World) (roleType : RoleType)
    (roleName sid : GoString) :
    (w.newRequestErr (bytes "POST")
        (c.BaseURL ++ bytes "role-strategy/strategy/assignUserRole") = none →
      postsForm c (c.AssignUserRole w roleType roleName sid)
        (bytes "role-strategy/strategy/assignUserRole")
        [(bytes "type", roleType), (bytes "roleName", roleName), (bytes "user", sid)]
        [bytes "group"]) ∧
    (w.newRequestErr (bytes "POST")
        (c.BaseURL ++ bytes "role-strategy/strategy/assignGroupRole") = none →
      postsForm c (c.AssignGroupRole w roleType roleName sid)
        (bytes "role-strategy/strategy/assignGroupRole")
        [(bytes "type", roleType), (bytes "roleName", roleName), (bytes "group", sid)]
        [bytes "user"]) ∧
    (w.newRequestErr (bytes "POST")
        (c.BaseURL ++ bytes "role-strategy/strategy/unassignUserRole") = none →
      postsForm c (c.UnassignUserRole w roleType roleName sid)
        (bytes "role-strategy/strategy/unassignUserRole")
        [(bytes "type", roleType), (bytes "roleName", roleName), (bytes "user", sid)]
        [bytes "group"]) ∧
    (w.newRequestErr (bytes "POST")
        (c.BaseURL ++ bytes "role-strategy/strategy/unassignGroupRole") = none →
      postsForm c (c.UnassignGroupRole w roleType roleName sid)
        (bytes "role-strategy/strategy/unassignGroupRole")
        [(bytes "type", roleType), (bytes "roleName", roleName), (bytes "group", sid)]
        [bytes "user"]) ∧
    (w.newRequestErr (bytes "POST")
        (c.BaseURL ++ bytes "role-strategy/strategy/deleteUser") = none →
      postsForm c (c.DeleteUser w roleType sid) (bytes "role-strategy/strategy/deleteUser")
        [(bytes "type", roleType), (bytes "user", sid)] [bytes "group"]) ∧
    (w.newRequestErr (bytes "POST")
        (c.BaseURL ++ bytes "role-strategy/strategy/deleteGroup") = none →
      postsForm c (c.DeleteGroup w roleType sid) (bytes "role-strategy/strategy/deleteGroup")
        [(bytes "type", roleType), (bytes "user", sid)] [bytes "group"]) := by
  obtain ⟨e1, e2, e3, e4, e5, e6⟩ := endpoint_paths
  have hu := sidRoleForm_user roleType roleName sid
  have hg := sidRoleForm_group roleType roleName sid
  have hd := deleteSidForm_fields roleType sid
  refine ⟨?_, ?_, ?_, ?_, ?_, ?_⟩
  · intro hok
    unfold Client.AssignUserRole
    rw [assignRole_shape, e1]
    exact writeTail_postsForm c w _ _ _ _ _ (bytes "type") roleType
      (hu.1 _ (List.mem_cons_self _ _)) hok hu.1 hu.2
  · intro hok
    unfold Client.AssignGroupRole
    rw [assignRole_shape, e2]
    exact writeTail_postsForm c w _ _ _ _ _ (bytes "type") roleType
      (hg.1 _ (List.mem_cons_self _ _)) hok hg.1 hg.2
  · intro hok
    unfold Client.UnassignUserRole
    rw [unassignRole_shape, e3]
    exact writeTail_postsForm c w _ _ _ _ _ (bytes "type") roleType
      (hu.1 _ (List.mem_cons_self _ _)) hok hu.1 hu.2
  · intro hok
    unfold Client.UnassignGroupRole
    rw [unassignRole_shape, e4]
    exact writeTail_postsForm c w _ _ _ _ _ (bytes "type") roleType
      (hg.1 _ (List.mem_cons_self _ _)) hok hg.1 hg.2
  · intro hok
    unfold Client.DeleteUser
    rw [deleteSid_shape, e5]
    exact writeTail_postsForm c w _ _ _ _ _ (bytes "type") roleType
      (hd.1 _ (List.mem_cons_self _ _)) hok hd.1 hd.2
  · intro hok
    unfold Client.DeleteGroup
    rw [deleteSid_shape, e6]
    exact writeTail_postsForm c w _ _ _ _ _ (bytes "type") roleType
      (hd.1 _ (List.mem_cons_self _ _)) hok hd.1 hd.2

/-- C9 on `DeleteGroup` for the group `devs`: the request goes to `deleteGroup` and
its body is `type=globalRoles&user=devs`. -/
theorem sid_kind_selects_endpoint_witness :
    (answering okEmpty).newRequestErr (bytes "POST")
        (client0.BaseURL ++ bytes "role-strategy/strategy/deleteGroup") = none ∧
    postsForm client0 (client0.DeleteGroup (answering okEmpty) GlobalRole (bytes "devs"))
      (bytes "role-strategy/strategy/deleteGroup")
      [(bytes "type", GlobalRole), (bytes "user", bytes "devs")] [bytes "group"] ∧
    (client0.DeleteGroup (answering okEmpty) GlobalRole (bytes "devs")).sent.map
        (fun r => (r.URL, r.Body))
      = [(bytes "http://j/role-strategy/strategy/deleteGroup",
          some ⟨bytes "type=globalRoles&user=devs"⟩)] :=
  ⟨rfl,
    (sid_kind_selects_endpoint client0 (answering okEmpty) GlobalRole [] (bytes "devs")).2.2.2.2.2
      rfl,
    by decide⟩

/-! ## C7 -/

theorem addRoleForm_optional (roleType : RoleType) (roleName permissionIds : GoString)
    (overwrite : Bool) (pattern template : GoString) :
    GoMap.get (addRoleForm roleType roleName permissionIds overwrite pattern template)
        (bytes "type") = some [roleType] ∧
    GoMap.get (addRoleForm roleType roleName permissionIds overwrite pattern template)
        (bytes "pattern") = (if pattern = [] then none else some [pattern]) ∧
    GoMap.get (addRoleForm roleType roleName permissionIds overwrite pattern template)
        (bytes "template") = (if template = [] then none else some [template]) := by
  by_cases hp : pattern = [] <;> by_cases ht : template = [] <;>
    simp only [addRoleForm, hp, ht, ne_eq, not_true_eq_false, not_false_eq_true, if_true,
      if_false] <;>
    exact ⟨rfl, rfl, rfl⟩

/-- C7: every call of `AddRole` hands `newRequest` a form body that decodes without
error, holds the key `pattern` exactly when the pattern argument is not empty, and
then with that argument as its one value; likewise for `template`.  An empty argument
leaves the key out: no key is sent with an empty value in its place.  Whenever
`http.NewRequest` accepts the target, that body is the body of the one request
handed to the transport. -/
theorem AddRole_optional_keys (c : Client) (w : World) (roleType : RoleType)
    (roleName permissionIds : GoString) (overwrite : Bool) (pattern template : GoString) :
    ∃ body failure,
      c.AddRole w roleType roleName permissionIds overwrite pattern template
        = writeTail c w
            (c.newRequest w (bytes "POST") (strategyPrefix ++ bytes "/addRole") body) failure ∧
      (ParseQuery body).2 = false ∧
      (Values.Has (ParseQuery body).1 (bytes "pattern") = true ↔ pattern ≠ []) ∧
      (Values.Has (ParseQuery body).1 (bytes "template") = true ↔ template ≠ []) ∧
      GoMap.get (ParseQuery body).1 (bytes "pattern")
        = (if pattern = [] then none else some [pattern]) ∧
      GoMap.get (ParseQuery body).1 (bytes "template")
        = (if template = [] then none else some [template]) ∧
      (w.newRequestErr (bytes "POST") (c.BaseURL ++ (strategyPrefix ++ bytes "/addRole")) = none →
        ∃ req,
          (c.AddRole w roleType roleName permissionIds overwrite pattern template).sent = [req] ∧
          req.Body = some ⟨body⟩) := by
  obtain ⟨h1, h2, h3⟩ :=
    addRoleForm_optional roleType roleName permissionIds overwrite pattern template
  have hne := Encode_ne_nil _ _ _ h1
  have hpat : GoMap.get (ParseQuery (Values.Encode
      (addRoleForm roleType roleName permissionIds overwrite pattern template))).1
        (bytes "pattern") = (if pattern = [] then none else some [pattern]) := by
    rw [(ParseQuery_Encode _ _).2, h2]
    by_cases hp : pattern = [] <;> simp [hp]
  have htem : GoMap.get (ParseQuery (Values.Encode
      (addRoleForm roleType roleName permissionIds overwrite pattern template))).1
        (bytes "template") = (if template = [] then none else some [template]) := by
    rw [(ParseQuery_Encode _ _).2, h3]
    by_cases ht : template = [] <;> simp [ht]
  refine ⟨_, _, AddRole_shape c w roleType roleName permissionIds overwrite pattern template,
    (ParseQuery_Encode _ []).1, ?_, ?_, hpat, htem, ?_⟩
  · unfold Values.Has
    rw [hpat]
    by_cases hp : pattern = [] <;> simp [hp]
  · unfold Values.Has
    rw [htem]
    by_cases ht : template = [] <;> simp [ht]
  · intro hok
    rw [AddRole_shape, newRequest_built c w _ _ _ hok]
    simp only [hne, ne_eq, not_false_eq_true, if_true]
    exact ⟨_, writeTail_sent c w _ _, rfl⟩

/-- C7 on a call with a pattern and no template: the body is
`overwrite=false&pattern=job-.%2A&permissionIds=hudson.model.Item.Read&roleName=qa&type=projectRoles`,
with the key `pattern` and without the key `template`. -/
theorem AddRole_optional_keys_witness :
    (answering okEmpty).newRequestErr (bytes "POST")
      (client0.BaseURL ++ (strategyPrefix ++ bytes "/addRole")) = none ∧
    (client0.AddRole (answering okEmpty) ProjectRole (bytes "qa") (bytes "hudson.model.Item.Read")
        false (bytes "job-.*") []).sent.map (fun r => r.Body)
      = [some ⟨bytes
          "overwrite=false&pattern=job-.%2A&permissionIds=hudson.model.Item.Read&roleName=qa&type=projectRoles"⟩] ∧
    ∃ body,
      (∃ req, (client0.AddRole (answering okEmpty) ProjectRole (bytes "qa")
          (bytes "hudson.model.Item.Read") false (bytes "job-.*") []).sent = [req] ∧
        req.Body = some ⟨body⟩) ∧
      Values.Has (ParseQuery body).1 (bytes "pattern") = true ∧
      GoMap.get (ParseQuery body).1 (bytes "pattern") = some [bytes "job-.*"] ∧
      GoMap.get (ParseQuery body).1 (bytes "template") = none := by
  obtain ⟨body, _, _, _, hp, _, hgp, hgt, hsent⟩ :=
    AddRole_optional_keys client0 (answering okEmpty) ProjectRole (bytes "qa")
      (bytes "hudson.model.Item.Read") false (bytes "job-.*") []
  refine ⟨rfl, by decide, body, hsent rfl, hp.2 (by decide), ?_, ?_⟩
  · rw [hgp]
    decide
  · rw [hgt]
    rfl

/-! ## C3 -/

theorem addRole_path : strategyPrefix ++ bytes "/addRole" = bytes "role-strategy/strategy/addRole" := by
  decide

set_option maxRecDepth 100000 in
theorem devLead_body :
    Values.Encode (addRoleForm GlobalRole (bytes "dev-lead")
        (bytes "hudson.model.Hudson.Administer") true [] [])
      = bytes
        "overwrite=true&permissionIds=hudson.model.Hudson.Administer&roleName=dev-lead&type=globalRoles" := by
  decide

set_option maxRecDepth 100000 in
theorem devLead_order :
    ¬ (bytes
        "type=globalRoles&roleName=dev-lead&permissionIds=hudson.model.Hudson.Administer&overwrite=true"
      <:+: bytes
        "overwrite=true&permissionIds=hudson.model.Hudson.Administer&roleName=dev-lead&type=globalRoles") := by
  decide

set_option maxRecDepth 100000 in
theorem devLead_sent :
    (client0.AddRole (answering okEmpty) GlobalRole (bytes "dev-lead")
      (bytes "hudson.model.Hudson.Administer") true [] []).sent.map (fun r => r.Body)
      = [some ⟨bytes
        "overwrite=true&permissionIds=hudson.model.Hudson.Administer&roleName=dev-lead&type=globalRoles"⟩] := by
  decide

set_option maxRecDepth 100000 in
theorem devLead_no_optional :
    Values.Has (ParseQuery (bytes
      "overwrite=true&permissionIds=hudson.model.Hudson.Administer&roleName=dev-lead&type=globalRoles")).1
        (bytes "pattern") = false ∧
    Values.Has (ParseQuery (bytes
      "overwrite=true&permissionIds=hudson.model.Hudson.Administer&roleName=dev-lead&type=globalRoles")).1
        (bytes "template") = false ∧
    ¬ (bytes "pattern" <:+: bytes
      "overwrite=true&permissionIds=hudson.model.Hudson.Administer&roleName=dev-lead&type=globalRoles") ∧
    ¬ (bytes "template" <:+: bytes
      "overwrite=true&permissionIds=hudson.model.Hudson.Administer&roleName=dev-lead&type=globalRoles") := by
  decide

/-- C3 fails as stated: the body `AddRole` posts for the role `dev-lead` does not
contain the text `type=globalRoles&roleName=dev-lead&permissionIds=hudson.model.Hudson.Administer&overwrite=true`,
because `Values.Encode` writes the pairs in ascending key order. -/
theorem AddRole_dev_lead_order_counterexample :
    (client0.AddRole (answering okEmpty) GlobalRole (bytes "dev-lead")
      (bytes "hudson.model.Hudson.Administer") true [] []).sent.map (fun r => r.Body)
      = [some ⟨bytes
        "overwrite=true&permissionIds=hudson.model.Hudson.Administer&roleName=dev-lead&type=globalRoles"⟩] ∧
    ¬ (bytes
        "type=globalRoles&roleName=dev-lead&permissionIds=hudson.model.Hudson.Administer&overwrite=true"
      <:+: bytes
        "overwrite=true&permissionIds=hudson.model.Hudson.Administer&roleName=dev-lead&type=globalRoles") :=
  ⟨devLead_sent, devLead_order⟩

/-- C3 as amended: whenever `http.NewRequest` accepts the target, `AddRole` for the
global role `dev-lead` with the permission `hudson.model.Hudson.Administer`, overwrite
set, and empty pattern and template posts to `role-strategy/strategy/addRole` the body
`overwrite=true&permissionIds=hudson.model.Hudson.Administer&roleName=dev-lead&type=globalRoles`:
the four pairs in ascending key order.  The body decodes to a form without the keys
`pattern` and `template`, and neither word occurs in it. -/
theorem AddRole_dev_lead_body (c : Client) (w : World)
    (hok : w.newRequestErr (bytes "POST")
      (c.BaseURL ++ bytes "role-strategy/strategy/addRole") = none) :
    ∃ req body,
      (c.AddRole w GlobalRole (bytes "dev-lead") (bytes "hudson.model.Hudson.Administer")
        true [] []).sent = [req] ∧
      req.Method = bytes "POST" ∧
      req.URL = c.BaseURL ++ bytes "role-strategy/strategy/addRole" ∧
      req.Body = some ⟨body⟩ ∧
      body = bytes
        "overwrite=true&permissionIds=hudson.model.Hudson.Administer&roleName=dev-lead&type=globalRoles" ∧
      Values.Has (ParseQuery body).1 (bytes "pattern") = false ∧
      Values.Has (ParseQuery body).1 (bytes "template") = false ∧
      ¬ (bytes "pattern" <:+: body) ∧ ¬ (bytes "template" <:+: body) := by
  rw [AddRole_shape, addRole_path, newRequest_built c w _ _ _ hok, devLead_body]
  exact ⟨_, _, writeTail_sent c w _ _, rfl, rfl, rfl, rfl, devLead_no_optional⟩

/-- C3 as amended, on the client for `http://j/`. -/
theorem AddRole_dev_lead_body_witness :
    (answering okEmpty).newRequestErr (bytes "POST")
      (client0.BaseURL ++ bytes "role-strategy/strategy/addRole") = none ∧
    ∃ req body,
      (client0.AddRole (answering okEmpty) GlobalRole (bytes "dev-lead")
        (bytes "hudson.model.Hudson.Administer") true [] []).sent = [req] ∧
      req.Method = bytes "POST" ∧
      req.URL = client0.BaseURL ++ bytes "role-strategy/strategy/addRole" ∧
      req.Body = some ⟨body⟩ ∧
      body = bytes
        "overwrite=true&permissionIds=hudson.model.Hudson.Administer&roleName=dev-lead&type=globalRoles" ∧
      Values.Has (ParseQuery body).1 (bytes "pattern") = false ∧
      Values.Has (ParseQuery body).1 (bytes "template") = false ∧
      ¬ (bytes "pattern" <:+: body) ∧ ¬ (bytes "template" <:+: body) :=
  ⟨rfl, AddRole_dev_lead_body client0 (answering okEmpty) rfl⟩

/-! ## C8 -/

theorem intercalate_cons_list (sep p : GoString) (ps : List GoString) :
    sep.intercalate (p :: ps) = p ++ ps.flatMap (fun q => sep ++ q) := by
  induction ps generalizing p with
  | nil => simp [List.intercalate]
  | cons q qs ih =>
    have h := ih q
    simp only [List.intercalate, List.intersperse, List.flatten_cons, List.flatMap_cons] at h ⊢
    rw [h]
    simp

theorem foldl_join (sep : GoString) (rest : List GoString) (b : GoString) :
    rest.foldl (fun b s => b ++ sep ++ s) b = b ++ rest.flatMap (fun q => sep ++ q) := by
  induction rest generalizing b with
  | nil => simp
  | cons s rest ih => rw [List.foldl_cons, ih]; simp

/-- Function `Join` puts exactly one separator between consecutive elements and
leaves the elements as they are. -/
theorem Join_eq_intercalate (elems : List GoString) (sep : GoString) :
    Join elems sep = sep.intercalate elems := by
  match elems with
  | [] => rfl
  | [e] => simp [Join, List.intercalate]
  | e :: e2 :: rest =>
    rw [intercalate_cons_list]
    exact foldl_join sep (e2 :: rest) e

theorem removeTemplates_path :
    strategyPrefix ++ bytes "/removeTemplates" = bytes "role-strategy/strategy/removeTemplates" ∧
    strategyPrefix ++ bytes "/removeRoles" = bytes "role-strategy/strategy/removeRoles" := by
  decide

theorem comma_ambiguity :
    Join [bytes "a,b"] (bytes ",") = Join [bytes "a", bytes "b"] (bytes ",") := by
  decide

/-- C8: for every list of names, whenever `http.NewRequest` accepts the target,
`RemoveTemplates` posts under the key `names`, and `RemoveRoles` under the key
`roleNames`, the elements of the list in order with exactly one comma between
consecutive elements and the elements unaltered; hence the lists `["a,b"]` and
`["a", "b"]` give the same outcome, with identical requests. -/
theorem names_joined_by_comma (c : Client) (w : World) (names : List GoString) (force : Bool)
    (roleType : RoleType) (roleNames : List GoString) :
    (w.newRequestErr (bytes "POST")
        (c.BaseURL ++ bytes "role-strategy/strategy/removeTemplates") = none →
      postsForm c (c.RemoveTemplates w names force)
        (bytes "role-strategy/strategy/removeTemplates")
        [(bytes "names", (bytes ",").intercalate names), (bytes "force", formatBool force)] []) ∧
    (w.newRequestErr (bytes "POST")
        (c.BaseURL ++ bytes "role-strategy/strategy/removeRoles") = none →
      postsForm c (c.RemoveRoles w roleType roleNames)
        (bytes "role-strategy/strategy/removeRoles")
        [(bytes "type", roleType), (bytes "roleNames", (bytes ",").intercalate roleNames)] []) ∧
    c.RemoveTemplates w [bytes "a,b"] force = c.RemoveTemplates w [bytes "a", bytes "b"] force ∧
    c.RemoveRoles w roleType [bytes "a,b"] = c.RemoveRoles w roleType [bytes "a", bytes "b"] := by
  refine ⟨?_, ?_, ?_, ?_⟩
  · intro hok
    rw [RemoveTemplates_shape, removeTemplates_path.1, ← Join_eq_intercalate]
    have hf : ∀ p ∈ [(bytes "names", Join names (bytes ",")), (bytes "force", formatBool force)],
        GoMap.get (removeTemplatesForm names force) p.1 = some [p.2] := by
      intro p hp
      simp only [List.mem_cons, List.mem_singleton, List.not_mem_nil, or_false] at hp
      rcases hp with rfl | rfl <;> rfl
    exact writeTail_postsForm c w _ _ _ _ _ (bytes "names") _
      (hf _ (List.mem_cons_self _ _)) hok hf (fun k hk => absurd hk (List.not_mem_nil k))
  · intro hok
    rw [RemoveRoles_shape, removeTemplates_path.2, ← Join_eq_intercalate]
    have hf : ∀ p ∈ [(bytes "type", roleType), (bytes "roleNames", Join roleNames (bytes ","))],
        GoMap.get (removeRolesForm roleType roleNames) p.1 = some [p.2] := by
      intro p hp
      simp only [List.mem_cons, List.mem_singleton, List.not_mem_nil, or_false] at hp
      rcases hp with rfl | rfl <;> rfl
    exact writeTail_postsForm c w _ _ _ _ _ (bytes "type") _
      (hf _ (List.mem_cons_self _ _)) hok hf (fun k hk => absurd hk (List.not_mem_nil k))
  · rw [RemoveTemplates_shape, RemoveTemplates_shape]
    unfold removeTemplatesForm
    rw [comma_ambiguity]
  · rw [RemoveRoles_shape, RemoveRoles_shape]
    unfold removeRolesForm
    rw [comma_ambiguity]

/-- C8 on the list `["a,b"]`: the body is `force=true&names=a%2Cb`, the body of the
list `["a", "b"]` as well. -/
theorem names_joined_by_comma_witness :
    (answering okEmpty).newRequestErr (bytes "POST")
        (client0.BaseURL ++ bytes "role-strategy/strategy/removeTemplates") = none ∧
    postsForm client0 (client0.RemoveTemplates (answering okEmpty) [bytes "a,b"] true)
      (bytes "role-strategy/strategy/removeTemplates")
      [(bytes "names", (bytes ",").intercalate [bytes "a,b"]), (bytes "force", formatBool true)]
      [] ∧
    (client0.RemoveTemplates (answering okEmpty) [bytes "a", bytes "b"] true).sent.map
        (fun r => r.Body) = [some ⟨bytes "force=true&names=a%2Cb"⟩] :=
  ⟨rfl,
    (names_joined_by_comma client0 (answering okEmpty) [bytes "a,b"] true GlobalRole []).1 rfl,
    by decide⟩

/-! ## C10 -/

theorem readBody_eq (s buf : List Byte) :
    Request.readBody ⟨s⟩ buf
      = (⟨s⟩, s.take (min buf.length s.length) ++ buf.drop (min buf.length s.length),
          min buf.length s.length, none) := by
  unfold Request.readBody nopReadCloser.Read copy
  simp only
  split <;> rfl

theorem readMany_eq (s buf : List Byte) (k : Nat) :
    readMany ⟨s⟩ buf k = List.replicate k (s.take buf.length) := by
  induction k with
  | zero => rfl
  | succ k ih =>
    unfold readMany
    rw [readBody_eq]
    simp only [ih, List.replicate_succ]
    congr 1
    rw [List.take_append_of_le_length (by simp)]
    simp [List.take_take]

theorem newRequest_body (c : Client) (w : World) (method path s : GoString) (req : Request)
    (hs : s ≠ []) (hreq : c.newRequest w method path s = .ok req) :
    req.ContentLength = (s.length : Int) ∧ req.Body = some ⟨s⟩ := by
  cases hw : w.newRequestErr method (c.BaseURL ++ path) with
  | some e => rw [newRequest_refused c w method path s e hw] at hreq; cases hreq
  | none =>
    rw [newRequest_built c w method path s hw] at hreq
    cases hreq
    simp [hs]

/-- C10, what the code does: `newRequest` with the body `ab` sets the content length
to 2 and holds `ab` in the body of the request.  A `Read` on a held body leaves the
body as it was and reports no error, so for every string `s` every `Read` with the
buffer `buf` delivers the same first `len(buf)` bytes of `s`, however many reads
came before.  With the body `ab` and a one-byte buffer two reads deliver `a` and
`a`, not `a` and `b`; with a four-byte buffer two reads deliver `ab` twice. -/
theorem nopReadCloser_read_restarts (s buf : GoString) (k : Nat) :
    (client0.newRequest (answering okEmpty) (bytes "POST") (bytes "x") (bytes "ab")).toOption.map
        (fun r => (r.ContentLength, r.Body)) = some (2, some ⟨bytes "ab"⟩) ∧
    (Request.readBody ⟨s⟩ buf).1 = ⟨s⟩ ∧
    (Request.readBody ⟨s⟩ buf).2.2.2 = none ∧
    readMany ⟨s⟩ buf k = List.replicate k (s.take buf.length) ∧
    readMany ⟨bytes "ab"⟩ [0] 2 = [bytes "a", bytes "a"] ∧
    readMany ⟨bytes "ab"⟩ [0, 0, 0, 0] 2 = [bytes "ab", bytes "ab"] :=
  ⟨by decide, by rw [readBody_eq], by rw [readBody_eq], readMany_eq s buf k, by decide,
    by decide⟩

/-! ## Status handling -/

theorem answering_answers (resp : Response) (c : Client) (method target : GoString) :
    answers (answering resp) c method target resp :=
  ⟨rfl, fun _ _ _ => rfl⟩

theorem writeTail_answered (c : Client) (w : World) (path body : GoString)
    (failure : Response → GoError) (resp : Response)
    (h : answers w c (bytes "POST") (c.BaseURL ++ path) resp)
    (hf : formatInt resp.StatusCode <:+: failure resp) :
    writeContract resp
      (writeTail c w (c.newRequest w (bytes "POST") path body) failure).err := by
  have hd := h.2 ⟨bytes "POST", c.BaseURL ++ path, some (c.Username, c.APIToken),
    [(bytes "Content-Type", bytes "application/x-www-form-urlencoded")],
    if body ≠ [] then (body.length : Int) else 0,
    if body ≠ [] then some ⟨body⟩ else none⟩ rfl rfl
  rw [newRequest_built c w _ path body h.1]
  unfold writeTail
  simp only [hd]
  by_cases hs : resp.StatusCode = 200
  · simp [writeContract, hs]
  · simp only [writeContract, hs, ne_eq, not_false_eq_true, if_true, false_implies, true_and,
      forall_const]
    exact ⟨_, rfl, hf⟩

theorem readTail_answered {α β : Type} (c : Client) (w : World) (path : GoString)
    (failure : Response → GoError) (decode : GoString → Except GoError β)
    (wrap : β → Option α) (resp : Response)
    (h : answers w c (bytes "GET") (c.BaseURL ++ path) resp)
    (hne : resp.StatusCode ≠ 200)
    (hf : formatInt resp.StatusCode <:+: failure resp ∧ resp.Status <:+: failure resp) :
    readFailure resp
      (readTail c w (c.newRequest w (bytes "GET") path []) failure decode wrap) := by
  have hd := h.2 ⟨bytes "GET", c.BaseURL ++ path, some (c.Username, c.APIToken),
    [(bytes "Content-Type", bytes "application/x-www-form-urlencoded")], 0, none⟩ rfl rfl
  rw [newRequest_built c w _ path [] h.1]
  unfold readTail
  simp only [ne_eq, not_true_eq_false, if_false, hd, hne, not_false_eq_true, if_true,
    readFailure, true_and]
  exact ⟨_, rfl, hf⟩

theorem write_paths :
    strategyPrefix ++ bytes "/addTemplate" = bytes "role-strategy/strategy/addTemplate" ∧
    strategyPrefix ++ bytes "/removeTemplates" = bytes "role-strategy/strategy/removeTemplates" ∧
    strategyPrefix ++ bytes "/addRole" = bytes "role-strategy/strategy/addRole" ∧
    strategyPrefix ++ bytes "/removeRoles" = bytes "role-strategy/strategy/removeRoles" := by
  decide

theorem read_paths :
    strategyPrefix ++ bytes "/getTemplate?name="
      = bytes "role-strategy/strategy/getTemplate?name=" ∧
    strategyPrefix ++ bytes "/getRole?type=" = bytes "role-strategy/strategy/getRole?type=" ∧
    strategyPrefix ++ bytes "/getAllRoles?type="
      = bytes "role-strategy/strategy/getAllRoles?type=" ∧
    strategyPrefix ++ bytes "/getRoleAssignments?type="
      = bytes "role-strategy/strategy/getRoleAssignments?type=" ∧
    strategyPrefix ++ bytes "/getMatchingJobs?pattern="
      = bytes "role-strategy/strategy/getMatchingJobs?pattern=" ∧
    strategyPrefix ++ bytes "/getMatchingAgents?pattern="
      = bytes "role-strategy/strategy/getMatchingAgents?pattern=" := by
  decide

/-! ## C1 -/

/-- C1: for each of the ten write operations and all arguments, when `http.NewRequest`
accepts the target of the operation (so the request is built) and the transport
answers the requests to that target with the response `resp`: a status code of 200
gives no error, and any other status code gives an error whose message contains the
status code in decimal. -/
theorem write_status_contract (c : Client) (w : World) (resp : Response) :
    (answers w c (bytes "POST") (c.BaseURL ++ bytes "role-strategy/strategy/addTemplate") resp →
      ∀ name permissionIds overwrite,
        writeContract resp (c.AddTemplate w name permissionIds overwrite).err) ∧
    (answers w c (bytes "POST")
        (c.BaseURL ++ bytes "role-strategy/strategy/removeTemplates") resp →
      ∀ names force, writeContract resp (c.RemoveTemplates w names force).err) ∧
    (answers w c (bytes "POST") (c.BaseURL ++ bytes "role-strategy/strategy/addRole") resp →
      ∀ roleType roleName permissionIds overwrite pattern template,
        writeContract resp
          (c.AddRole w roleType roleName permissionIds overwrite pattern template).err) ∧
    (answers w c (bytes "POST") (c.BaseURL ++ bytes "role-strategy/strategy/removeRoles") resp →
      ∀ roleType roleNames, writeContract resp (c.RemoveRoles w roleType roleNames).err) ∧
    (answers w c (bytes "POST")
        (c.BaseURL ++ bytes "role-strategy/strategy/assignUserRole") resp →
      ∀ roleType roleName user,
        writeContract resp (c.AssignUserRole w roleType roleName user).err) ∧
    (answers w c (bytes "POST")
        (c.BaseURL ++ bytes "role-strategy/strategy/assignGroupRole") resp →
      ∀ roleType roleName group,
        writeContract resp (c.AssignGroupRole w roleType roleName group).err) ∧
    (answers w c (bytes "POST")
        (c.BaseURL ++ bytes "role-strategy/strategy/unassignUserRole") resp →
      ∀ roleType roleName user,
        writeContract resp (c.UnassignUserRole w roleType roleName user).err) ∧
    (answers w c (bytes "POST")
        (c.BaseURL ++ bytes "role-strategy/strategy/unassignGroupRole") resp →
      ∀ roleType roleName group,
        writeContract resp (c.UnassignGroupRole w roleType roleName group).err) ∧
    (answers w c (bytes "POST") (c.BaseURL ++ bytes "role-strategy/strategy/deleteUser") resp →
      ∀ roleType user, writeContract resp (c.DeleteUser w roleType user).err) ∧
    (answers w c (bytes "POST") (c.BaseURL ++ bytes "role-strategy/strategy/deleteGroup") resp →
      ∀ roleType group, writeContract resp (c.DeleteGroup w roleType group).err) := by
  obtain ⟨p1, p2, p3, p4⟩ := write_paths
  obtain ⟨e1, e2, e3, e4, e5, e6⟩ := endpoint_paths
  refine ⟨?_, ?_, ?_, ?_, ?_, ?_, ?_, ?_, ?_, ?_⟩
  · intro h name permissionIds overwrite
    rw [AddTemplate_shape, p1]
    exact writeTail_answered c w _ _ _ resp h (infix_mid3 _ _ _ _ _ _)
  · intro h names force
    rw [RemoveTemplates_shape, p2]
    exact writeTail_answered c w _ _ _ resp h (infix_mid2 _ _ _ _)
  · intro h roleType roleName permissionIds overwrite pattern template
    rw [AddRole_shape, p3]
    exact writeTail_answered c w _ _ _ resp h (infix_mid2 _ _ _ _)
  · intro h roleType roleNames
    rw [RemoveRoles_shape, p4]
    exact writeTail_answered c w _ _ _ resp h (infix_mid2 _ _ _ _)
  · intro h roleType roleName user
    unfold Client.AssignUserRole
    rw [assignRole_shape, e1]
    exact writeTail_answered c w _ _ _ resp h (infix_mid2 _ _ _ _)
  · intro h roleType roleName group
    unfold Client.AssignGroupRole
    rw [assignRole_shape, e2]
    exact writeTail_answered c w _ _ _ resp h (infix_mid2 _ _ _ _)
  · intro h roleType roleName user
    unfold Client.UnassignUserRole
    rw [unassignRole_shape, e3]
    exact writeTail_answered c w _ _ _ resp h (infix_mid2 _ _ _ _)
  · intro h roleType roleName group
    unfold Client.UnassignGroupRole
    rw [unassignRole_shape, e4]
    exact writeTail_answered c w _ _ _ resp h (infix_mid2 _ _ _ _)
  · intro h roleType user
    unfold Client.DeleteUser
    rw [deleteSid_shape, e5]
    exact writeTail_answered c w _ _ _ resp h (infix_mid2 _ _ _ _)
  · intro h roleType group
    unfold Client.DeleteGroup
    rw [deleteSid_shape, e6]
    exact writeTail_answered c w _ _ _ resp h (infix_mid2 _ _ _ _)

/-- C1 on `AddTemplate` answered with `403 Forbidden`, where the error is
`add template failed: 403 403 Forbidden: <html>no</html>`, and on `DeleteUser`
answered with `200 OK`, where there is no error. -/
theorem write_status_contract_witness :
    answers (answering forbidden) client0 (bytes "POST")
      (client0.BaseURL ++ bytes "role-strategy/strategy/addTemplate") forbidden ∧
    writeContract forbidden
      (client0.AddTemplate (answering forbidden) (bytes "developer")
        (bytes "hudson.model.Item.Read") true).err ∧
    (client0.AddTemplate (answering forbidden) (bytes "developer")
        (bytes "hudson.model.Item.Read") true).err
      = some (bytes "add template failed: 403 403 Forbidden: <html>no</html>") ∧
    answers (answering okEmpty) client0 (bytes "POST")
      (client0.BaseURL ++ bytes "role-strategy/strategy/deleteUser") okEmpty ∧
    writeContract okEmpty (client0.DeleteUser (answering okEmpty) GlobalRole (bytes "alice")).err ∧
    (client0.DeleteUser (answering okEmpty) GlobalRole (bytes "alice")).err = none :=
  ⟨answering_answers _ _ _ _,
    (write_status_contract client0 (answering forbidden) forbidden).1
      (answering_answers _ _ _ _) (bytes "developer") (bytes "hudson.model.Item.Read") true,
    by decide,
    answering_answers _ _ _ _,
    (write_status_contract client0 (answering okEmpty) okEmpty).2.2.2.2.2.2.2.2.1
      (answering_answers _ _ _ _) GlobalRole (bytes "alice"),
    by decide⟩

/-! ## C2 -/

/-- C2: for each of the six read operations and all arguments, when `http.NewRequest`
accepts the target of the operation and the transport answers the requests to that
target with a response `resp` whose status code is not 200, then whatever the body
of `resp` and whatever the decoder would do, the operation returns no value and an
error whose message contains the status code in decimal and the status text. -/
theorem read_status_failure (c : Client) (w : World) (resp : Response)
    (hne : resp.StatusCode ≠ 200) :
    (∀ name,
      answers w c (bytes "GET")
        (c.BaseURL ++ (bytes "role-strategy/strategy/getTemplate?name=" ++ QueryEscape name))
        resp →
      readFailure resp (c.GetTemplate w name)) ∧
    (∀ roleType roleName,
      answers w c (bytes "GET")
        (c.BaseURL ++ (bytes "role-strategy/strategy/getRole?type=" ++ QueryEscape roleType ++
          bytes "&roleName=" ++ QueryEscape roleName)) resp →
      readFailure resp (c.GetRole w roleType roleName)) ∧
    (∀ roleType,
      answers w c (bytes "GET")
        (c.BaseURL ++ (bytes "role-strategy/strategy/getAllRoles?type=" ++ QueryEscape roleType))
        resp →
      readFailure resp (c.GetAllRoles w roleType)) ∧
    (∀ roleType,
      answers w c (bytes "GET")
        (c.BaseURL ++
          (bytes "role-strategy/strategy/getRoleAssignments?type=" ++ QueryEscape roleType))
        resp →
      readFailure resp (c.GetRoleAssignments w roleType)) ∧
    (∀ pattern maxJobs,
      answers w c (bytes "GET")
        (c.BaseURL ++ (bytes "role-strategy/strategy/getMatchingJobs?pattern=" ++
          QueryEscape pattern ++ bytes "&maxJobs=" ++ formatInt maxJobs)) resp →
      readFailure resp (c.GetMatchingJobs w pattern maxJobs)) ∧
    (∀ pattern maxAgents,
      answers w c (bytes "GET")
        (c.BaseURL ++ (bytes "role-strategy/strategy/getMatchingAgents?pattern=" ++
          QueryEscape pattern ++ bytes "&maxAgents=" ++ formatInt maxAgents)) resp →
      readFailure resp (c.GetMatchingAgents w pattern maxAgents)) := by
  obtain ⟨p1, p2, p3, p4, p5, p6⟩ := read_paths
  refine ⟨?_, ?_, ?_, ?_, ?_, ?_⟩
  · intro name h
    rw [GetTemplate_shape, p1]
    exact readTail_answered c w _ _ _ _ resp h hne ⟨infix_mid2 _ _ _ _, infix_end _ _⟩
  · intro roleType roleName h
    rw [GetRole_shape, p2]
    exact readTail_answered c w _ _ _ _ resp h hne ⟨infix_mid2 _ _ _ _, infix_end _ _⟩
  · intro roleType h
    rw [GetAllRoles_shape, p3]
    exact readTail_answered c w _ _ _ _ resp h hne ⟨infix_mid2 _ _ _ _, infix_end _ _⟩
  · intro roleType h
    rw [GetRoleAssignments_shape, p4]
    exact readTail_answered c w _ _ _ _ resp h hne ⟨infix_mid2 _ _ _ _, infix_end _ _⟩
  · intro pattern maxJobs h
    rw [GetMatchingJobs_shape, p5]
    exact readTail_answered c w _ _ _ _ resp h hne ⟨infix_mid2 _ _ _ _, infix_end _ _⟩
  · intro pattern maxAgents h
    rw [GetMatchingAgents_shape, p6]
    exact readTail_answered c w _ _ _ _ resp h hne ⟨infix_mid2 _ _ _ _, infix_end _ _⟩

/-- C2 on `GetRole` answered with `403 Forbidden`: no role value, and the error
`get role failed: 403 403 Forbidden`, which contains `403`; and on `GetTemplate`
answered likewise. -/
theorem read_status_failure_witness :
    forbidden.StatusCode ≠ 200 ∧
    answers (answering forbidden) client0 (bytes "GET")
      (client0.BaseURL ++ (bytes "role-strategy/strategy/getRole?type=" ++
        QueryEscape GlobalRole ++ bytes "&roleName=" ++ QueryEscape (bytes "dev-lead")))
      forbidden ∧
    (client0.GetRole (answering forbidden) GlobalRole (bytes "dev-lead")).val = none ∧
    (∃ msg, (client0.GetRole (answering forbidden) GlobalRole (bytes "dev-lead")).err = some msg ∧
      bytes "403" <:+: msg) ∧
    (client0.GetRole (answering forbidden) GlobalRole (bytes "dev-lead")).err
      = some (bytes "get role failed: 403 403 Forbidden") ∧
    readFailure forbidden (client0.GetTemplate (answering forbidden) (bytes "developer")) := by
  have h := (read_status_failure client0 (answering forbidden) forbidden (by decide)).2.1
    GlobalRole (bytes "dev-lead") (answering_answers _ _ _ _)
  have h2 := (read_status_failure client0 (answering forbidden) forbidden (by decide)).1
    (bytes "developer") (answering_answers _ _ _ _)
  obtain ⟨hv, msg, he, h1, _⟩ := h
  exact ⟨by decide, answering_answers _ _ _ _, hv, ⟨msg, he, h1⟩, by decide, h2⟩

end RoleStrategy
